import Mathlib

/-!
# epoll_tutorial: the readiness-driven connection engine

A shallow embedding of `src/epollout_demo.c` and `src/epoll_server.c`.

* Bytes are natural numbers (`List Nat` is a byte buffer).
* The operating system is an explicit `Kernel` value (epoll registrations, open
  descriptors, the bytes every `write` accepted) that each operation threads through.
* The outcomes of `write`, `malloc` and `localtime`, which the program cannot
  influence, come from an `Env` script indexed by call counters.
* The outcomes of `read` on one descriptor during one handler invocation are an explicit
  list of `ReadOutcome`.
-/

namespace EpollTutorial

/-! ## Constants of `<sys/epoll.h>` (Linux values) -/

def EPOLLIN : Nat := 0x001
def EPOLLPRI : Nat := 0x002
def EPOLLOUT : Nat := 0x004
def EPOLLERR : Nat := 0x008
def EPOLLHUP : Nat := 0x010
def EPOLLRDHUP : Nat := 0x2000
def EPOLLET : Nat := 0x80000000

/-- The C test `mask & flag`: true when the two masks share a bit. -/
def has_flag (mask flag : Nat) : Bool := mask &&& flag != 0

/-! ## The kernel side -/

/-- Result of one `write(2)` call: `accepted n` is a return value `n ≥ 0`,
`wouldBlock` is `-1` with `EAGAIN`/`EWOULDBLOCK`, `fault` is `-1` with any other errno. -/
inductive WriteResp where
  | accepted (n : Nat)
  | wouldBlock
  | fault
deriving DecidableEq, Repr

/-- Result of one `read(2)` call: `bytes bs` is a return value `bs.length`
(`bytes []` is the return value 0), `wouldBlock` is `-1` with `EAGAIN`/`EWOULDBLOCK`,
`fault` is `-1` with any other errno. -/
inductive ReadOutcome where
  | bytes (bs : List Nat)
  | wouldBlock
  | fault
deriving DecidableEq, Repr

/-- Broken-down time as returned by `localtime`. -/
structure Tm where
  tm_year : Int
  tm_mon : Int
  tm_mday : Int
  tm_hour : Int
  tm_min : Int
  tm_sec : Int
deriving DecidableEq, Repr

/-- What the environment answers: `write i` to the `i`-th `write` call, `malloc i` to the
`i`-th checked `malloc` call, `localtime i` when the clock is read after `i` writes. -/
structure Env where
  write : Nat → WriteResp
  malloc : Nat → Bool
  localtime : Nat → Tm

/-- Kernel state seen by the servers.
`epoll` is the interest list of `epoll_fd` (descriptor and registered mask),
`open_fds` the open descriptors, `wire` every byte a `write` accepted (tagged with
its descriptor, oldest first), `writes` and `mallocs` the number of `write` and
checked `malloc` calls made so far, `backlog` the descriptors `accept` will return. -/
structure Kernel where
  epoll : List (Int × Nat)
  open_fds : List Int
  wire : List (Int × Nat)
  writes : Nat
  mallocs : Nat
  backlog : List Int
deriving DecidableEq, Repr

/-- Interest mask registered for `fd`, if any. -/
def Kernel.interest (k : Kernel) (fd : Int) : Option Nat :=
  match k.epoll.find? (fun p => p.1 == fd) with
  | some p => some p.2
  | none => none

/-- Bytes the transport accepted for `fd`, in order. -/
def Kernel.delivered (k : Kernel) (fd : Int) : List Nat :=
  (k.wire.filter (fun p => p.1 == fd)).map (fun p => p.2)

/-- Model of `epoll_ctl(epoll_fd, EPOLL_CTL_ADD, fd, &event)`: fails on a closed or an
already registered descriptor. The Boolean is `true` on success. -/
def epoll_ctl_add (k : Kernel) (fd : Int) (mask : Nat) : Kernel × Bool :=
  if fd ∈ k.open_fds ∧ k.interest fd = none then
    ({ k with epoll := k.epoll ++ [(fd, mask)] }, true)
  else (k, false)

/-- Model of `epoll_ctl(epoll_fd, EPOLL_CTL_MOD, fd, &event)`: fails when `fd` is not
registered. -/
def epoll_ctl_mod (k : Kernel) (fd : Int) (mask : Nat) : Kernel × Bool :=
  if k.interest fd = none then (k, false)
  else ({ k with epoll := k.epoll.map (fun p => if p.1 == fd then (fd, mask) else p) }, true)

/-- Model of `epoll_ctl(epoll_fd, EPOLL_CTL_DEL, fd, NULL)`: fails when `fd` is not
registered. -/
def epoll_ctl_del (k : Kernel) (fd : Int) : Kernel × Bool :=
  if k.interest fd = none then (k, false)
  else ({ k with epoll := k.epoll.filter (fun p => p.1 != fd) }, true)

/-- Model of `close(fd)`: the descriptor is no longer open and the kernel drops it from
the epoll interest list. -/
def sys_close (k : Kernel) (fd : Int) : Kernel :=
  { k with open_fds := k.open_fds.filter (fun g => g != fd),
           epoll := k.epoll.filter (fun p => p.1 != fd) }

/-- Model of `write(fd, buf, count)`. A closed descriptor fails with `EBADF`; otherwise the
environment decides. On `accepted n` the first `n` of the `count` requested bytes of
`buf` go onto the wire and `n` is returned as the environment gave it. -/
def sys_write (env : Env) (k : Kernel) (fd : Int) (buf : List Nat) (count : Nat) :
    Kernel × WriteResp :=
  if fd ∈ k.open_fds then
    match env.write k.writes with
    | .accepted n =>
      ({ k with wire := k.wire ++ ((buf.take count).take n).map (fun b => (fd, b)),
                writes := k.writes + 1 }, .accepted n)
    | .wouldBlock => ({ k with writes := k.writes + 1 }, .wouldBlock)
    | .fault => ({ k with writes := k.writes + 1 }, .fault)
  else ({ k with writes := k.writes + 1 }, .fault)

/-- Model of `read(fd, buffer, count)`, given the outcome the peer side scripts for this
call. A closed descriptor fails with `EBADF`; at most `count` bytes are returned. -/
def sys_read (k : Kernel) (fd : Int) (count : Nat) (r : ReadOutcome) : ReadOutcome :=
  if fd ∈ k.open_fds then
    match r with
    | .bytes bs => .bytes (bs.take count)
    | .wouldBlock => .wouldBlock
    | .fault => .fault
  else .fault

/-- Model of `accept(listen_fd, ...)` returning descriptor `fd`. -/
def sys_accept (k : Kernel) (fd : Int) (rest : List Int) : Kernel :=
  { k with open_fds := if fd ∈ k.open_fds then k.open_fds else k.open_fds ++ [fd],
           backlog := rest }

/-! ## C strings -/

/-- Bytes of a string literal. -/
def lit (s : String) : List Nat := s.toList.map Char.toNat

/-- The C string stored in a buffer: the bytes before the first NUL. -/
def cstr (buf : List Nat) : List Nat := buf.takeWhile (fun b => b != 0)

/-- Contents of the read buffer after `buffer[bytes_read] = 0` and after a final
newline has been overwritten with NUL, read as a C string. -/
def strip_newline (bs : List Nat) : List Nat :=
  if bs.getLast? = some 10 then cstr bs.dropLast else cstr bs

/-- Result of `snprintf(response, size, ...)` for the formatted bytes `out`: at most
`size - 1` bytes are stored (followed by NUL). -/
def snprintf (size : Nat) (out : List Nat) : List Nat := out.take (size - 1)

/-! ## `src/epollout_demo.c` -/

namespace EpolloutDemo

def MAX_EVENTS : Nat := 100
def BUFFER_SIZE : Nat := 4096
def LARGE_DATA_SIZE : Nat := 10 * 1024 * 1024

/-- Model of `struct client_write_state`; `data` is the heap block `data` points to. -/
structure client_write_state where
  data : List Nat
  total_size : Nat
  sent_bytes : Nat
  fd : Int
deriving DecidableEq, Repr

/-- Program state: the kernel, the global `listen_fd` and the first
`write_states_count` slots of the global array `write_states`. -/
structure Server where
  kernel : Kernel
  listen_fd : Int
  write_states : List client_write_state
deriving DecidableEq, Repr

/-- Calls made by the event loop of `main`, in order. -/
inductive Call where
  | new_connection
  | disconnect (fd : Int)
  | client_read (fd : Int)
  | client_write (fd : Int)
deriving DecidableEq, Repr

/-- One entry of the `events` array filled by `epoll_wait`, with the outcomes that
`read` calls on `fd` produce while this entry is handled. -/
structure Ready where
  fd : Int
  events : Nat
  reads : List ReadOutcome
deriving DecidableEq, Repr

/-- Model of `find_write_state`: index of the first slot whose `fd` matches (the returned
pointer is `&write_states[i]`), `none` for `NULL`. -/
def find_write_state : List client_write_state → Int → Option Nat
  | [], _ => none
  | st :: rest, fd =>
    if st.fd = fd then some 0
    else
      match find_write_state rest fd with
      | some i => some (i + 1)
      | none => none

/-- Model of `remove_write_state`: the first slot whose `fd` matches is overwritten with
the last slot and the count drops by one; nothing happens when no slot matches. -/
def remove_write_state (ws : List client_write_state) (fd : Int) : List client_write_state :=
  match find_write_state ws fd with
  | none => ws
  | some i =>
    match ws.getLast? with
    | some last => (ws.set i last).dropLast
    | none => ws

/-- Model of `add_write_state`. The unchecked `malloc(size)` is taken to succeed; the
result of `epoll_ctl` is only printed. -/
def add_write_state (s : Server) (fd : Int) (data : List Nat) (size : Nat) : Server :=
  if s.write_states.length ≥ MAX_EVENTS then s
  else
    let state : client_write_state :=
      { fd := fd, data := data.take size, total_size := size, sent_bytes := 0 }
    { s with
      write_states := s.write_states ++ [state],
      kernel := (epoll_ctl_mod s.kernel fd (EPOLLIN ||| EPOLLOUT ||| EPOLLRDHUP ||| EPOLLET)).1 }

/-- Model of `continue_writing`: returns the kernel, the updated `*state` and the
return value (0 done, 1 data left, -1 error). `size_t` arithmetic is exact here:
`sent_bytes < total_size` and `bytes_sent ≤ SSIZE_MAX` keep the sum below `2^64`. -/
def continue_writing (env : Env) (k : Kernel) (state : client_write_state) :
    Kernel × client_write_state × Int :=
  if state.sent_bytes < state.total_size then
    let remaining := state.total_size - state.sent_bytes
    match sys_write env k state.fd (state.data.drop state.sent_bytes) remaining with
    | (k1, .wouldBlock) => (k1, state, 1)
    | (k1, .fault) => (k1, state, -1)
    | (k1, .accepted n) =>
      if n = 0 then (k1, state, -1)
      else
        let state1 := { state with sent_bytes := state.sent_bytes + n }
        if n < remaining then (k1, state1, 1)
        else continue_writing env k1 state1
  else (k, state, 0)
termination_by state.total_size - state.sent_bytes
decreasing_by
  simp_wf
  omega

/-- The teardown sequence `remove_write_state(fd); epoll_ctl(epoll_fd, EPOLL_CTL_DEL, fd, NULL);
close(fd);` that `main`, `handle_client_read` and `handle_client_write` each spell out. -/
def disconnect (s : Server) (fd : Int) : Server :=
  { s with
    write_states := remove_write_state s.write_states fd,
    kernel := sys_close (epoll_ctl_del s.kernel fd).1 fd }

/-- The fill loop `for (i = ...; i < ...; i++) large_data[i] = 'A' + (i % 26);` with `n`
bytes still to write from index `i`. -/
def fill_large : Nat → Nat → List Nat
  | 0, _ => []
  | n + 1, i => (65 + i % 26) :: fill_large n (i + 1)

/-- The payload built by the fill loop of `handle_client_read`. -/
def large_data : List Nat := fill_large LARGE_DATA_SIZE 0

/-- Model of `handle_client_write`. -/
def handle_client_write (env : Env) (s : Server) (client_fd : Int) : Server :=
  match find_write_state s.write_states client_fd with
  | none => s
  | some i =>
    match s.write_states[i]? with
    | none => s
    | some state =>
      match continue_writing env s.kernel state with
      | (k1, state1, result) =>
        let s1 : Server := { s with kernel := k1, write_states := s.write_states.set i state1 }
        if result = 0 then
          { s1 with
            write_states := remove_write_state s1.write_states client_fd,
            kernel := (epoll_ctl_mod s1.kernel client_fd (EPOLLIN ||| EPOLLRDHUP ||| EPOLLET)).1 }
        else if result = -1 then disconnect s1 client_fd
        else s1

/-- Model of `handle_client_read`; `reads` are the outcomes of the successive `read`
calls. When the list ends no further data is available (`EAGAIN`). -/
def handle_client_read (env : Env) : Server → Int → List ReadOutcome → Server
  | s, _, [] => s
  | s, client_fd, r :: rest =>
    match sys_read s.kernel client_fd (BUFFER_SIZE - 1) r with
    | .bytes bs =>
      if 0 < bs.length then
        let buffer := strip_newline bs
        if buffer = lit "large" then
          let k0 := { s.kernel with mallocs := s.kernel.mallocs + 1 }
          if env.malloc s.kernel.mallocs then
            match sys_write env k0 client_fd large_data LARGE_DATA_SIZE with
            | (k1, .wouldBlock) =>
              handle_client_read env
                (add_write_state { s with kernel := k1 } client_fd large_data LARGE_DATA_SIZE)
                client_fd rest
            | (k1, .fault) => handle_client_read env { s with kernel := k1 } client_fd rest
            | (k1, .accepted n) =>
              if n < LARGE_DATA_SIZE then
                handle_client_read env
                  (add_write_state { s with kernel := k1 } client_fd (large_data.drop n)
                    (LARGE_DATA_SIZE - n))
                  client_fd rest
              else handle_client_read env { s with kernel := k1 } client_fd rest
          else
            let error_msg := lit "Memory allocation failed\n"
            { s with kernel := (sys_write env k0 client_fd error_msg error_msg.length).1 }
        else
          let response := snprintf BUFFER_SIZE (lit "Echo: " ++ buffer ++ lit "\n")
          handle_client_read env
            { s with kernel := (sys_write env s.kernel client_fd response response.length).1 }
            client_fd rest
      else disconnect s client_fd
    | .wouldBlock => s
    | .fault => disconnect s client_fd

/-- The `accept` loop of `handle_new_connection`, over the descriptors still queued. -/
def accept_loop (env : Env) : List Int → Server → Server
  | [], s => s
  | client_fd :: rest, s =>
    let k0 := sys_accept s.kernel client_fd rest
    match epoll_ctl_add k0 client_fd (EPOLLIN ||| EPOLLRDHUP ||| EPOLLET) with
    | (k1, false) => accept_loop env rest { s with kernel := sys_close k1 client_fd }
    | (k1, true) =>
      let msg := lit "Connected! Send \x27large\x27 to test EPOLLOUT handling\n"
      accept_loop env rest { s with kernel := (sys_write env k1 client_fd msg msg.length).1 }

/-- Model of `handle_new_connection`. -/
def handle_new_connection (env : Env) (s : Server) : Server :=
  accept_loop env s.kernel.backlog s

/-- One iteration of the `for` loop in `main`: the new state and the calls made. -/
def process_event (env : Env) (s : Server) (ev : Ready) : Server × List Call :=
  if ev.fd = s.listen_fd then
    if has_flag ev.events EPOLLIN then (handle_new_connection env s, [Call.new_connection])
    else (s, [])
  else if has_flag ev.events (EPOLLHUP ||| EPOLLERR ||| EPOLLRDHUP) then
    (disconnect s ev.fd, [Call.disconnect ev.fd])
  else
    let r1 : Server × List Call :=
      if has_flag ev.events EPOLLIN then
        (handle_client_read env s ev.fd ev.reads, [Call.client_read ev.fd])
      else (s, [])
    let r2 : Server × List Call :=
      if has_flag ev.events EPOLLOUT then
        (handle_client_write env r1.1 ev.fd, [Call.client_write ev.fd])
      else (r1.1, [])
    (r2.1, r1.2 ++ r2.2)

/-- The `for (i = 0; i < nfds; i++)` loop of `main` over one batch of events. -/
def process_events (env : Env) : Server → List Ready → Server × List Call
  | s, [] => (s, [])
  | s, ev :: rest =>
    let r := process_event env s ev
    let r2 := process_events env r.1 rest
    (r2.1, r.2 ++ r2.2)

end EpolloutDemo

/-! ## `src/epoll_server.c` -/

namespace EpollServer

def MAX_EVENTS : Nat := 1000
def BUFFER_SIZE : Nat := 4096

/-- Program state: the kernel and the global `listen_fd`. -/
structure Server where
  kernel : Kernel
  listen_fd : Int
deriving DecidableEq, Repr

/-- Calls made by the event loop of `main`, in order. -/
inductive Call where
  | new_connection
  | client_disconnect (fd : Int)
  | client_message (fd : Int)
deriving DecidableEq, Repr

/-- One entry of the `events` array filled by `epoll_wait`, with the outcomes that
`read` calls on `fd` produce while this entry is handled. -/
structure Ready where
  fd : Int
  events : Nat
  reads : List ReadOutcome
deriving DecidableEq, Repr

/-- Model of `handle_client_disconnect`: `EPOLL_CTL_DEL` (a failure is only reported with
`perror`) followed by `close`. -/
def handle_client_disconnect (s : Server) (client_fd : Int) : Server :=
  { s with kernel := sys_close (epoll_ctl_del s.kernel client_fd).1 client_fd }

/-- The conversion `%0<width>d` of `printf`. -/
def fmt_0d (width : Nat) (x : Int) : List Nat :=
  let ds := (Nat.toDigits 10 x.natAbs).map Char.toNat
  if x < 0 then 45 :: (List.replicate (width - 1 - ds.length) 48 ++ ds)
  else List.replicate (width - ds.length) 48 ++ ds

/-- Model of `process_message`: the bytes left in `response` (before the NUL) for the
C string `request`, with `now` the value of `localtime(&now)`. -/
def process_message (now : Tm) (request : List Nat) (response_size : Nat) : List Nat :=
  if request.length = 0 then snprintf response_size (lit "Empty message received\n")
  else if request = lit "ping" then snprintf response_size (lit "pong\n")
  else if request = lit "time" then
    snprintf response_size
      (lit "Current time: " ++ fmt_0d 4 (now.tm_year + 1900) ++ lit "-" ++
        fmt_0d 2 (now.tm_mon + 1) ++ lit "-" ++ fmt_0d 2 now.tm_mday ++ lit " " ++
        fmt_0d 2 now.tm_hour ++ lit ":" ++ fmt_0d 2 now.tm_min ++ lit ":" ++
        fmt_0d 2 now.tm_sec ++ lit "\n")
  else if request = lit "quit" ∨ request = lit "exit" then
    snprintf response_size (lit "Goodbye!\n")
  else if request.take 5 = lit "echo " then
    snprintf response_size (request.drop 5 ++ lit "\n")
  else if request = lit "help" then
    snprintf response_size
      (lit "Available commands:\n" ++
        lit "  ping     - responds with pong\n" ++
        lit "  time     - shows current time\n" ++
        lit "  echo <msg> - echoes your message\n" ++
        lit "  help     - shows this help\n" ++
        lit "  quit/exit - disconnect\n")
  else snprintf response_size (lit "Echo: " ++ request ++ lit "\n")

/-- Model of `handle_client_message`; `reads` are the outcomes of the successive `read`
calls. When the list ends no further data is available (`EAGAIN`). -/
def handle_client_message (env : Env) : Server → Int → List ReadOutcome → Server
  | s, _, [] => s
  | s, client_fd, r :: rest =>
    match sys_read s.kernel client_fd (BUFFER_SIZE - 1) r with
    | .bytes bs =>
      if 0 < bs.length then
        let buffer := strip_newline bs
        let response := process_message (env.localtime s.kernel.writes) buffer BUFFER_SIZE
        match sys_write env s.kernel client_fd response response.length with
        | (k1, .fault) => handle_client_disconnect { s with kernel := k1 } client_fd
        | (k1, .wouldBlock) => handle_client_message env { s with kernel := k1 } client_fd rest
        | (k1, .accepted _) => handle_client_message env { s with kernel := k1 } client_fd rest
      else handle_client_disconnect s client_fd
    | .wouldBlock => s
    | .fault => handle_client_disconnect s client_fd

/-- The `accept` loop of `handle_new_connection`, over the descriptors still queued;
`make_socket_non_blocking` succeeds on a freshly accepted descriptor. -/
def accept_loop (env : Env) : List Int → Server → Server
  | [], s => s
  | client_fd :: rest, s =>
    let k0 := sys_accept s.kernel client_fd rest
    match epoll_ctl_add k0 client_fd (EPOLLIN ||| EPOLLRDHUP ||| EPOLLET) with
    | (k1, false) => accept_loop env rest { s with kernel := sys_close k1 client_fd }
    | (k1, true) =>
      let welcome_msg := lit "Welcome to Carlos\x27s Echo Server!\n"
      accept_loop env rest
        { s with kernel := (sys_write env k1 client_fd welcome_msg welcome_msg.length).1 }

/-- Model of `handle_new_connection`. -/
def handle_new_connection (env : Env) (s : Server) : Server :=
  accept_loop env s.kernel.backlog s

/-- One iteration of the `for` loop in `main`: the new state and the calls made. -/
def process_event (env : Env) (s : Server) (ev : Ready) : Server × List Call :=
  if ev.fd = s.listen_fd then
    if has_flag ev.events EPOLLIN then (handle_new_connection env s, [Call.new_connection])
    else (s, [])
  else if has_flag ev.events (EPOLLHUP ||| EPOLLERR ||| EPOLLRDHUP) then
    (handle_client_disconnect s ev.fd, [Call.client_disconnect ev.fd])
  else if has_flag ev.events EPOLLIN then
    (handle_client_message env s ev.fd ev.reads, [Call.client_message ev.fd])
  else (s, [])

/-- The `for (i = 0; i < nfds; i++)` loop of `main` over one batch of events. -/
def process_events (env : Env) : Server → List Ready → Server × List Call
  | s, [] => (s, [])
  | s, ev :: rest =>
    let r := process_event env s ev
    let r2 := process_events env r.1 rest
    (r2.1, r.2 ++ r2.2)

end EpollServer

/-! ## Vocabulary of the properties -/

/-- Number of slots of the registry that belong to `fd`. -/
def states_for (ws : List EpolloutDemo.client_write_state) (fd : Int) : Nat :=
  ws.countP (fun st => st.fd == fd)

/-- Write interest of `g` is registered exactly when the registry holds an undelivered
state for `g`. -/
def out_iff_pending (s : EpolloutDemo.Server) (g : Int) : Prop :=
  (∃ m, s.kernel.interest g = some m ∧ has_flag m EPOLLOUT = true) ↔
    (∃ st ∈ s.write_states, st.fd = g ∧ st.sent_bytes < st.total_size)

/-- The calls the event loop of `epollout_demo` owes to one event, judged by its
descriptor and mask alone. -/
def EpolloutDemo.calls_by_mask (listen_fd : Int) (ev : EpolloutDemo.Ready) :
    List EpolloutDemo.Call :=
  if ev.fd = listen_fd then
    if has_flag ev.events EPOLLIN then [EpolloutDemo.Call.new_connection] else []
  else if has_flag ev.events EPOLLHUP || has_flag ev.events EPOLLERR ||
      has_flag ev.events EPOLLRDHUP then
    [EpolloutDemo.Call.disconnect ev.fd]
  else
    (if has_flag ev.events EPOLLIN then [EpolloutDemo.Call.client_read ev.fd] else []) ++
      (if has_flag ev.events EPOLLOUT then [EpolloutDemo.Call.client_write ev.fd] else [])

/-- The calls the event loop of `epoll_server` owes to one event, judged by its
descriptor and mask alone. -/
def EpollServer.calls_by_mask (listen_fd : Int) (ev : EpollServer.Ready) :
    List EpollServer.Call :=
  if ev.fd = listen_fd then
    if has_flag ev.events EPOLLIN then [EpollServer.Call.new_connection] else []
  else if has_flag ev.events EPOLLHUP || has_flag ev.events EPOLLERR ||
      has_flag ev.events EPOLLRDHUP then
    [EpollServer.Call.client_disconnect ev.fd]
  else if has_flag ev.events EPOLLIN then [EpollServer.Call.client_message ev.fd]
  else []

/-- The two operations of the write path of one connection: `submit` is the read handler
receiving the request "large", `drain` is `handle_client_write` on a writable event. -/
inductive WriteOp where
  | submit
  | drain
deriving DecidableEq, Repr

/-- One operation on connection `fd`. -/
def EpolloutDemo.apply_op (env : Env) (fd : Int) (s : EpolloutDemo.Server) :
    WriteOp → EpolloutDemo.Server
  | .submit => EpolloutDemo.handle_client_read env s fd [ReadOutcome.bytes (lit "large\n")]
  | .drain => EpolloutDemo.handle_client_write env s fd

/-- A sequence of operations on connection `fd`, oldest first. -/
def EpolloutDemo.run_ops (env : Env) (fd : Int) :
    EpolloutDemo.Server → List WriteOp → EpolloutDemo.Server
  | s, [] => s
  | s, op :: rest => EpolloutDemo.run_ops env fd (EpolloutDemo.apply_op env fd s op) rest

/-- The bytes the submissions among `ops` ask to send, in submission order. -/
def EpolloutDemo.submitted : List WriteOp → List Nat
  | [] => []
  | .submit :: rest => EpolloutDemo.large_data ++ EpolloutDemo.submitted rest
  | .drain :: rest => EpolloutDemo.submitted rest

/-- A transport answer that is a full write, a short write or would-block for a request
of `requested` bytes. -/
def good_response (r : WriteResp) (requested : Nat) : Bool :=
  match r with
  | .accepted n => decide (0 < n) && decide (n ≤ requested)
  | .wouldBlock => true
  | .fault => false

/-- The operation meets the conditions of the no-loss property: a submission finds the
connection without write state, a free registry slot and memory for the payload, and
the `write` the operation issues gets a `good_response`. -/
def EpolloutDemo.op_admissible (env : Env) (fd : Int) (s : EpolloutDemo.Server) :
    WriteOp → Bool
  | .submit =>
    EpolloutDemo.find_write_state s.write_states fd == none &&
      decide (s.write_states.length < EpolloutDemo.MAX_EVENTS) &&
      env.malloc s.kernel.mallocs &&
      good_response (env.write s.kernel.writes) EpolloutDemo.LARGE_DATA_SIZE
  | .drain =>
    match EpolloutDemo.find_write_state s.write_states fd with
    | none => true
    | some i =>
      match s.write_states[i]? with
      | none => true
      | some st =>
        if st.sent_bytes < st.total_size then
          good_response (env.write s.kernel.writes) (st.total_size - st.sent_bytes)
        else true

/-- Every operation of the sequence is admissible in the state it is applied to. -/
def EpolloutDemo.run_admissible (env : Env) (fd : Int) :
    EpolloutDemo.Server → List WriteOp → Bool
  | _, [] => true
  | s, op :: rest =>
    EpolloutDemo.op_admissible env fd s op &&
      EpolloutDemo.run_admissible env fd (EpolloutDemo.apply_op env fd s op) rest

/-- The bytes of the write state of `fd` that have not been handed to the transport. -/
def EpolloutDemo.unsent (s : EpolloutDemo.Server) (fd : Int) : List Nat :=
  match EpolloutDemo.find_write_state s.write_states fd with
  | none => []
  | some i =>
    match s.write_states[i]? with
    | none => []
    | some st => st.data.drop st.sent_bytes

/-- An environment whose `write` answers follow `w`, whose allocations succeed and whose
clock shows 2024-01-01 00:00:00. -/
def env_of (w : Nat → WriteResp) : Env :=
  { write := w, malloc := fun _ => true, localtime := fun _ => ⟨124, 0, 1, 0, 0, 0⟩ }

/-- Listener 3 and one accepted client 5, both registered as the servers register them. -/
def kernel5 : Kernel :=
  { epoll := [(3, EPOLLIN ||| EPOLLET), (5, EPOLLIN ||| EPOLLRDHUP ||| EPOLLET)],
    open_fds := [3, 5], wire := [], writes := 0, mallocs := 0, backlog := [] }

/-- The `epollout_demo` server with client 5 connected and nothing pending. -/
def demo5 : EpolloutDemo.Server := { kernel := kernel5, listen_fd := 3, write_states := [] }

/-- The `epoll_server` server with client 5 connected. -/
def server5 : EpollServer.Server := { kernel := kernel5, listen_fd := 3 }

/-- A five-byte outbound buffer for client 5, nothing sent yet. -/
def state5 : EpolloutDemo.client_write_state :=
  { data := [1, 2, 3, 4, 5], total_size := 5, sent_bytes := 0, fd := 5 }

/-- The transport takes 3 bytes on the first call and would take 2 on the next. -/
def env_short : Env :=
  env_of (fun i => if i = 0 then WriteResp.accepted 3 else WriteResp.accepted 2)

/-- The transport is full: every `write` would block. -/
def env_block : Env := env_of (fun _ => WriteResp.wouldBlock)

/-- Client 5 with write interest registered. -/
def kernel5_out : Kernel :=
  { kernel5 with
    epoll := [(3, EPOLLIN ||| EPOLLET), (5, EPOLLIN ||| EPOLLOUT ||| EPOLLRDHUP ||| EPOLLET)] }

/-- The `epollout_demo` server with `state5` pending for client 5. -/
def demo5_pending : EpolloutDemo.Server :=
  { kernel := kernel5_out, listen_fd := 3, write_states := [state5] }

/-- The state `epollout_demo` reaches from `demo5` when client 5 sends "large" twice and
every `write` would block. -/
def demo5_twice : EpolloutDemo.Server :=
  EpolloutDemo.handle_client_read env_block demo5 5
    [ReadOutcome.bytes (lit "large\n"), ReadOutcome.bytes (lit "large\n")]

/-- The transport is full at first and afterwards takes up to 9 bytes per call. -/
def env_block_then_9 : Env :=
  env_of (fun i => if i = 0 then WriteResp.wouldBlock else WriteResp.accepted 9)

/-- The transport is full at first and afterwards takes 3 bytes per call. -/
def env_block_then_3 : Env :=
  env_of (fun i => if i = 0 then WriteResp.wouldBlock else WriteResp.accepted 3)

/-- The transport takes 4 bytes, then is full once, then takes all that is left of one
large payload. -/
def env_trickle : Env :=
  env_of (fun i =>
    if i = 0 then WriteResp.accepted 4
    else if i = 1 then WriteResp.wouldBlock
    else WriteResp.accepted (EpolloutDemo.LARGE_DATA_SIZE - 4))

/-- The transport is full, then takes 3 bytes, then a whole large payload, then what is
left of a second one. -/
def env_overtake : Env :=
  env_of (fun i =>
    if i = 0 then WriteResp.wouldBlock
    else if i = 1 then WriteResp.accepted 3
    else if i = 2 then WriteResp.accepted EpolloutDemo.LARGE_DATA_SIZE
    else WriteResp.accepted (EpolloutDemo.LARGE_DATA_SIZE - 3))

/-- The transport is full twice and then takes a whole large payload. -/
def env_block_twice : Env :=
  env_of (fun i =>
    if i < 2 then WriteResp.wouldBlock else WriteResp.accepted EpolloutDemo.LARGE_DATA_SIZE)

/-- Client 5 connected and idle while `MAX_EVENTS` other clients (descriptors 100 to 199)
each have a large payload pending, so that the registry is full. -/
def demo_full : EpolloutDemo.Server :=
  { kernel :=
      { epoll := [(3, EPOLLIN ||| EPOLLET), (5, EPOLLIN ||| EPOLLRDHUP ||| EPOLLET)] ++
          (List.range EpolloutDemo.MAX_EVENTS).map
            (fun i => (((100 + i : Nat) : Int), EPOLLIN ||| EPOLLOUT ||| EPOLLRDHUP ||| EPOLLET)),
        open_fds :=
          [3, 5] ++ (List.range EpolloutDemo.MAX_EVENTS).map (fun i => ((100 + i : Nat) : Int)),
        wire := [], writes := 0, mallocs := 0, backlog := [] },
    listen_fd := 3,
    write_states := (List.range EpolloutDemo.MAX_EVENTS).map
      (fun i => { data := EpolloutDemo.large_data, total_size := EpolloutDemo.LARGE_DATA_SIZE,
                  sent_bytes := 0, fd := ((100 + i : Nat) : Int) }) }

/-- Every `write` fails with an error other than would-block. -/
def env_fault : Env := env_of (fun _ => WriteResp.fault)

/-- Every `write` takes up to 4096 bytes, and `malloc` fails. -/
def env_no_memory : Env :=
  { write := fun _ => WriteResp.accepted 4096, malloc := fun _ => false,
    localtime := fun _ => ⟨124, 0, 1, 0, 0, 0⟩ }

/-- Every `write` takes up to 4096 bytes. -/
def env_accept : Env := env_of (fun _ => WriteResp.accepted 4096)

/-! ## Auxiliary lemmas -/

theorem lor_eq_zero (a b : Nat) : a ||| b = 0 ↔ a = 0 ∧ b = 0 := by
  constructor
  · intro h
    constructor
    · apply Nat.eq_of_testBit_eq
      intro i
      have := congrArg (fun x => x.testBit i) h
      simp only [Nat.testBit_or, Nat.zero_testBit, Bool.or_eq_false_iff] at this
      simp [this.1]
    · apply Nat.eq_of_testBit_eq
      intro i
      have := congrArg (fun x => x.testBit i) h
      simp only [Nat.testBit_or, Nat.zero_testBit, Bool.or_eq_false_iff] at this
      simp [this.2]
  · rintro ⟨rfl, rfl⟩
    rfl

theorem has_flag_or (m a b : Nat) :
    has_flag m (a ||| b) = (has_flag m a || has_flag m b) := by
  unfold has_flag
  rw [Nat.and_or_distrib_left, Bool.eq_iff_iff]
  simp only [bne_iff_ne, ne_eq, Bool.or_eq_true, lor_eq_zero, not_and_or]

namespace EpolloutDemo

/-- The loop of `continue_writing` written out: after one `write` it either returns or
has nothing left to send. -/
theorem continue_writing_eq (env : Env) (k : Kernel) (state : client_write_state) :
    continue_writing env k state =
      if state.sent_bytes < state.total_size then
        match sys_write env k state.fd (state.data.drop state.sent_bytes)
            (state.total_size - state.sent_bytes) with
        | (k1, .wouldBlock) => (k1, state, 1)
        | (k1, .fault) => (k1, state, -1)
        | (k1, .accepted n) =>
          if n = 0 then (k1, state, -1)
          else if n < state.total_size - state.sent_bytes then
            (k1, { state with sent_bytes := state.sent_bytes + n }, 1)
          else (k1, { state with sent_bytes := state.sent_bytes + n }, 0)
      else (k, state, 0) := by
  rw [continue_writing]
  by_cases h : state.sent_bytes < state.total_size
  · simp only [h, if_true]
    rcases hw : sys_write env k state.fd (state.data.drop state.sent_bytes)
      (state.total_size - state.sent_bytes) with ⟨k1, r⟩
    cases r with
    | wouldBlock => rfl
    | fault => rfl
    | accepted n =>
      by_cases h0 : n = 0
      · simp [h0]
      · by_cases hn : n < state.total_size - state.sent_bytes
        · simp [h0, hn]
        · have hdone : ¬ (state.sent_bytes + n < state.total_size) := by omega
          simp only [h0, hn, if_false]
          rw [continue_writing]
          simp only [hdone, if_false]
  · simp only [h, if_false]

/-- `handle_client_write` with the loop of `continue_writing` written out. -/
theorem handle_client_write_eq (env : Env) (s : Server) (client_fd : Int) :
    handle_client_write env s client_fd =
      match find_write_state s.write_states client_fd with
      | none => s
      | some i =>
        match s.write_states[i]? with
        | none => s
        | some state =>
          match (if state.sent_bytes < state.total_size then
              match sys_write env s.kernel state.fd (state.data.drop state.sent_bytes)
                  (state.total_size - state.sent_bytes) with
              | (k1, .wouldBlock) => (k1, state, (1 : Int))
              | (k1, .fault) => (k1, state, -1)
              | (k1, .accepted n) =>
                if n = 0 then (k1, state, -1)
                else if n < state.total_size - state.sent_bytes then
                  (k1, { state with sent_bytes := state.sent_bytes + n }, 1)
                else (k1, { state with sent_bytes := state.sent_bytes + n }, 0)
            else (s.kernel, state, 0)) with
          | (k1, state1, result) =>
            let s1 : Server :=
              { s with kernel := k1, write_states := s.write_states.set i state1 }
            if result = 0 then
              { s1 with
                write_states := remove_write_state s1.write_states client_fd,
                kernel :=
                  (epoll_ctl_mod s1.kernel client_fd (EPOLLIN ||| EPOLLRDHUP ||| EPOLLET)).1 }
            else if result = -1 then disconnect s1 client_fd
            else s1 := by
  rw [handle_client_write]
  simp only [continue_writing_eq]

/-- The slot `find_write_state` returns exists and belongs to the descriptor asked for. -/
theorem find_write_state_some (ws : List client_write_state) (fd : Int) (i : Nat)
    (h : find_write_state ws fd = some i) :
    ∃ st, ws[i]? = some st ∧ st.fd = fd := by
  induction ws generalizing i with
  | nil => simp [find_write_state] at h
  | cons a rest ih =>
    unfold find_write_state at h
    by_cases ha : a.fd = fd
    · simp only [ha, if_true, Option.some.injEq] at h
      subst h
      exact ⟨a, by simp, ha⟩
    · simp only [ha, if_false] at h
      cases hr : find_write_state rest fd with
      | none => simp [hr] at h
      | some j =>
        simp only [hr, Option.some.injEq] at h
        subst h
        obtain ⟨st, h1, h2⟩ := ih j hr
        exact ⟨st, by simpa using h1, h2⟩

/-- Writing back the value a slot already holds changes nothing. -/
theorem set_same (ws : List client_write_state) (i : Nat) (st : client_write_state)
    (h : ws[i]? = some st) : ws.set i st = ws := by
  induction ws generalizing i with
  | nil => rfl
  | cons a rest ih =>
    cases i with
    | zero =>
      simp only [List.getElem?_cons_zero, Option.some.injEq] at h
      simp [h]
    | succ j =>
      simp only [List.getElem?_cons_succ] at h
      simp [ih j h]

theorem add_write_state_listen_fd (s : Server) (fd : Int) (data : List Nat) (size : Nat) :
    (add_write_state s fd data size).listen_fd = s.listen_fd := by
  unfold add_write_state
  split <;> rfl

theorem handle_client_read_listen_fd (env : Env) (s : Server) (fd : Int)
    (reads : List ReadOutcome) : (handle_client_read env s fd reads).listen_fd = s.listen_fd := by
  induction reads generalizing s with
  | nil => rfl
  | cons r rest ih =>
    unfold handle_client_read
    dsimp only
    repeat' split
    all_goals first
      | rfl
      | rw [ih, add_write_state_listen_fd]
      | rw [ih]

theorem handle_client_write_listen_fd (env : Env) (s : Server) (fd : Int) :
    (handle_client_write env s fd).listen_fd = s.listen_fd := by
  unfold handle_client_write
  dsimp only
  repeat' split
  all_goals rfl

theorem accept_loop_listen_fd (env : Env) (l : List Int) (s : Server) :
    (accept_loop env l s).listen_fd = s.listen_fd := by
  induction l generalizing s with
  | nil => rfl
  | cons a rest ih =>
    unfold accept_loop
    dsimp only
    split <;> rw [ih]

theorem process_event_listen_fd (env : Env) (s : Server) (ev : Ready) :
    (process_event env s ev).1.listen_fd = s.listen_fd := by
  unfold process_event
  dsimp only
  repeat' split
  all_goals first
    | rfl
    | exact accept_loop_listen_fd _ _ _
    | simp only [handle_client_write_listen_fd, handle_client_read_listen_fd]

theorem process_event_calls (env : Env) (s : Server) (ev : Ready) :
    (process_event env s ev).2 = calls_by_mask s.listen_fd ev := by
  unfold process_event calls_by_mask
  simp only [has_flag_or]
  repeat' split
  all_goals rfl

end EpolloutDemo

namespace EpollServer

theorem handle_client_message_listen_fd (env : Env) (s : Server) (fd : Int)
    (reads : List ReadOutcome) :
    (handle_client_message env s fd reads).listen_fd = s.listen_fd := by
  induction reads generalizing s with
  | nil => rfl
  | cons r rest ih =>
    unfold handle_client_message
    dsimp only
    repeat' split
    all_goals first
      | rfl
      | rw [ih]

theorem server_accept_loop_listen_fd (env : Env) (l : List Int) (s : Server) :
    (accept_loop env l s).listen_fd = s.listen_fd := by
  induction l generalizing s with
  | nil => rfl
  | cons a rest ih =>
    unfold accept_loop
    dsimp only
    split <;> rw [ih]

theorem server_process_event_listen_fd (env : Env) (s : Server) (ev : Ready) :
    (process_event env s ev).1.listen_fd = s.listen_fd := by
  unfold process_event
  repeat' split
  all_goals first
    | rfl
    | exact server_accept_loop_listen_fd _ _ _
    | exact handle_client_message_listen_fd _ _ _ _

theorem server_process_event_calls (env : Env) (s : Server) (ev : Ready) :
    (process_event env s ev).2 = calls_by_mask s.listen_fd ev := by
  unfold process_event calls_by_mask
  simp only [has_flag_or]
  repeat' split
  all_goals rfl

end EpollServer

theorem EpolloutDemo.process_events_calls (env : Env) (batch : List EpolloutDemo.Ready)
    (s : EpolloutDemo.Server) :
    (EpolloutDemo.process_events env s batch).2 =
      batch.flatMap (EpolloutDemo.calls_by_mask s.listen_fd) := by
  induction batch generalizing s with
  | nil => rfl
  | cons ev rest ih =>
    simp only [EpolloutDemo.process_events, List.flatMap_cons, ih,
      EpolloutDemo.process_event_listen_fd, EpolloutDemo.process_event_calls]

theorem EpollServer.server_process_events_calls (env : Env) (batch : List EpollServer.Ready)
    (s : EpollServer.Server) :
    (EpollServer.process_events env s batch).2 =
      batch.flatMap (EpollServer.calls_by_mask s.listen_fd) := by
  induction batch generalizing s with
  | nil => rfl
  | cons ev rest ih =>
    simp only [EpollServer.process_events, List.flatMap_cons, ih,
      EpollServer.server_process_event_listen_fd, EpollServer.server_process_event_calls]

namespace EpolloutDemo

theorem find_write_state_none_iff (ws : List client_write_state) (fd : Int) :
    find_write_state ws fd = none ↔ ∀ st ∈ ws, st.fd ≠ fd := by
  induction ws with
  | nil => simp [find_write_state]
  | cons a rest ih =>
    unfold find_write_state
    by_cases ha : a.fd = fd
    · simp [ha]
    · cases hr : find_write_state rest fd with
      | none =>
        have := ih.1 hr
        simpa [ha] using this
      | some j =>
        have hne : ¬ ∀ st ∈ rest, st.fd ≠ fd := fun h => by
          rw [ih.2 h] at hr
          cases hr
        simp only [ha, if_false, List.mem_cons, forall_eq_or_imp, ne_eq, not_false_eq_true,
          true_and]
        constructor
        · intro h
          cases h
        · intro h
          exact absurd h hne

theorem find_write_state_append (pre post : List client_write_state)
    (st : client_write_state) (fd : Int) (hst : st.fd = fd) (hpre : ∀ x ∈ pre, x.fd ≠ fd) :
    find_write_state (pre ++ st :: post) fd = some pre.length := by
  induction pre with
  | nil => simp [find_write_state, hst]
  | cons a rest ih =>
    have ha : a.fd ≠ fd := hpre a (List.mem_cons_self _ _)
    have hrest : ∀ x ∈ rest, x.fd ≠ fd := fun x hx => hpre x (List.mem_cons_of_mem _ hx)
    simp [find_write_state, ha, ih hrest]

theorem find_write_state_split (ws : List client_write_state) (fd : Int) (i : Nat)
    (h : find_write_state ws fd = some i) :
    ∃ pre st post, ws = pre ++ st :: post ∧ pre.length = i ∧ st.fd = fd ∧
      ∀ x ∈ pre, x.fd ≠ fd := by
  induction ws generalizing i with
  | nil => simp [find_write_state] at h
  | cons a rest ih =>
    unfold find_write_state at h
    by_cases ha : a.fd = fd
    · simp only [ha, if_true, Option.some.injEq] at h
      exact ⟨[], a, rest, rfl, by simpa using h, ha, by simp⟩
    · simp only [ha, if_false] at h
      cases hr : find_write_state rest fd with
      | none => simp [hr] at h
      | some j =>
        simp only [hr, Option.some.injEq] at h
        obtain ⟨pre, st, post, h1, h2, h3, h4⟩ := ih j hr
        refine ⟨a :: pre, st, post, by simp [h1], by simp [h2, h], h3, ?_⟩
        intro x hx
        rcases List.mem_cons.1 hx with rfl | hx
        · exact ha
        · exact h4 x hx

theorem remove_write_state_none (ws : List client_write_state) (fd : Int)
    (h : find_write_state ws fd = none) : remove_write_state ws fd = ws := by
  simp [remove_write_state, h]

theorem remove_write_state_last (pre : List client_write_state) (st : client_write_state)
    (fd : Int) (hst : st.fd = fd) (hpre : ∀ x ∈ pre, x.fd ≠ fd) :
    remove_write_state (pre ++ [st]) fd = pre := by
  have hf := find_write_state_append pre [] st fd hst hpre
  simp [remove_write_state, hf]

theorem remove_write_state_inner (pre post : List client_write_state)
    (st l : client_write_state) (fd : Int) (hst : st.fd = fd)
    (hpre : ∀ x ∈ pre, x.fd ≠ fd) :
    remove_write_state (pre ++ st :: (post ++ [l])) fd = pre ++ l :: post := by
  have hf := find_write_state_append pre (post ++ [l]) st fd hst hpre
  have hcat : pre ++ st :: (post ++ [l]) = (pre ++ st :: post) ++ [l] := by simp
  have hlast : (pre ++ st :: (post ++ [l])).getLast? = some l := by
    rw [hcat]
    exact List.getLast?_concat _
  have hset : (pre ++ st :: (post ++ [l])).set pre.length l = (pre ++ l :: post) ++ [l] := by
    simp [List.set_append]
  simp only [remove_write_state, hf, hlast, hset]
  exact List.dropLast_concat

theorem states_for_zero_iff (ws : List client_write_state) (fd : Int) :
    states_for ws fd = 0 ↔ ∀ st ∈ ws, st.fd ≠ fd := by
  simp [states_for, List.countP_eq_zero]

theorem states_for_append (l1 l2 : List client_write_state) (fd : Int) :
    states_for (l1 ++ l2) fd = states_for l1 fd + states_for l2 fd := by
  simp [states_for, List.countP_append]

theorem states_for_cons (a : client_write_state) (l : List client_write_state) (fd : Int) :
    states_for (a :: l) fd = states_for l fd + (if a.fd = fd then 1 else 0) := by
  simp [states_for, List.countP_cons]

/-- Shape of the registry around the slot `find_write_state` returns, and what
`remove_write_state` makes of it. -/
theorem remove_write_state_shape (ws : List client_write_state) (fd : Int) (i : Nat)
    (h : find_write_state ws fd = some i) :
    ∃ pre st post, ws = pre ++ st :: post ∧ pre.length = i ∧ st.fd = fd ∧
      (∀ x ∈ pre, x.fd ≠ fd) ∧
      ((post = [] ∧ remove_write_state ws fd = pre) ∨
        ∃ p l, post = p ++ [l] ∧ remove_write_state ws fd = pre ++ l :: p) := by
  obtain ⟨pre, st, post, h1, h2, h3, h4⟩ := find_write_state_split ws fd i h
  refine ⟨pre, st, post, h1, h2, h3, h4, ?_⟩
  rcases List.eq_nil_or_concat post with hp | ⟨p, l, hp⟩
  · left
    subst hp
    exact ⟨rfl, by rw [h1]; exact remove_write_state_last pre st fd h3 h4⟩
  · right
    rw [List.concat_eq_append] at hp
    subst hp
    exact ⟨p, l, rfl, by rw [h1]; exact remove_write_state_inner pre p st l fd h3 h4⟩

theorem find_remove_write_state (ws : List client_write_state) (fd : Int)
    (h : states_for ws fd ≤ 1) : find_write_state (remove_write_state ws fd) fd = none := by
  cases hf : find_write_state ws fd with
  | none => rw [remove_write_state_none ws fd hf, hf]
  | some i =>
    obtain ⟨pre, st, post, h1, _, h3, h4, h5⟩ := remove_write_state_shape ws fd i hf
    rw [h1, states_for_append, states_for_cons] at h
    simp only [h3, if_true] at h
    have hpost : ∀ x ∈ post, x.fd ≠ fd := (states_for_zero_iff post fd).1 (by omega)
    rw [find_write_state_none_iff]
    rcases h5 with ⟨_, hr⟩ | ⟨p, l, hp, hr⟩
    · rw [hr]
      exact h4
    · rw [hr]
      intro x hx
      rcases List.mem_append.1 hx with hx | hx
      · exact h4 x hx
      · apply hpost
        rw [hp]
        rcases List.mem_cons.1 hx with rfl | hx
        · simp
        · simp [hx]

theorem mem_remove_write_state (ws : List client_write_state) (fd : Int)
    (x : client_write_state) (hx : x.fd ≠ fd) :
    x ∈ remove_write_state ws fd ↔ x ∈ ws := by
  cases hf : find_write_state ws fd with
  | none => rw [remove_write_state_none ws fd hf]
  | some i =>
    obtain ⟨pre, st, post, h1, _, h3, _, h5⟩ := remove_write_state_shape ws fd i hf
    have hne : x ≠ st := fun h => hx (h ▸ h3)
    rcases h5 with ⟨hp, hr⟩ | ⟨p, l, hp, hr⟩
    · rw [hr, h1, hp]
      simp [hne]
    · rw [hr, h1, hp]
      simp only [List.mem_append, List.mem_cons, List.mem_singleton, hne, false_or]
      tauto

end EpolloutDemo

/-- Lookup in an interest list, as `Kernel.interest` performs it. -/
theorem interest_eq (k : Kernel) (g : Int) :
    k.interest g = (k.epoll.find? (fun p => p.1 == g)).map (fun p => p.2) := by
  unfold Kernel.interest
  cases k.epoll.find? (fun p => p.1 == g) <;> rfl

theorem find_filter_ne (l : List (Int × Nat)) (fd g : Int) :
    (l.filter (fun p => p.1 != fd)).find? (fun p => p.1 == g) =
      if g = fd then none else l.find? (fun p => p.1 == g) := by
  induction l with
  | nil => simp
  | cons a rest ih =>
    by_cases h1 : a.1 = fd
    · by_cases h2 : g = fd
      · simp [List.filter_cons, h1, h2, ih]
      · have h3 : ¬ fd = g := fun h => h2 h.symm
        simp [List.filter_cons, h1, h2, h3, ih]
    · by_cases h2 : a.1 = g
      · have h3 : ¬ g = fd := fun h => h1 (h2.trans h)
        simp [List.filter_cons, h1, h2, h3]
      · simp [List.filter_cons, List.find?_cons, h1, h2, ih]

theorem find_map_mod (l : List (Int × Nat)) (fd g : Int) (m : Nat) :
    ((l.map (fun p => if p.1 == fd then (fd, m) else p)).find? (fun p => p.1 == g)).map
        (fun p => p.2) =
      if g = fd then ((l.find? (fun p => p.1 == fd)).map (fun _ => m))
      else (l.find? (fun p => p.1 == g)).map (fun p => p.2) := by
  induction l with
  | nil => simp
  | cons a rest ih =>
    rw [List.map_cons]
    by_cases h1 : a.1 = fd
    · have e1 : (a.1 == fd) = true := by simpa using h1
      by_cases h2 : g = fd
      · have e2 : (fd == g) = true := by simpa using h2.symm
        rw [if_pos e1, List.find?_cons_of_pos _ (by simpa using e2), if_pos h2,
          List.find?_cons_of_pos _ (by simpa using e1)]
        rfl
      · have e2 : ¬ ((fd == g) = true) := by simpa using fun h : fd = g => h2 h.symm
        have e3 : ¬ ((a.1 == g) = true) := by rw [h1]; exact e2
        rw [if_pos e1, List.find?_cons_of_neg _ (by simpa using e2), ih, if_neg h2, if_neg h2,
          List.find?_cons_of_neg _ (by simpa using e3)]
    · have e1 : ¬ ((a.1 == fd) = true) := by simpa using h1
      rw [if_neg e1]
      by_cases h2 : a.1 = g
      · have e2 : (a.1 == g) = true := by simpa using h2
        have h3 : ¬ g = fd := fun h => h1 (h2.trans h)
        rw [List.find?_cons_of_pos _ (by simpa using e2), if_neg h3,
          List.find?_cons_of_pos _ (by simpa using e2)]
      · have e2 : ¬ ((a.1 == g) = true) := by simpa using h2
        rw [List.find?_cons_of_neg _ (by simpa using e2), ih,
          List.find?_cons_of_neg _ (by simpa using e1),
          List.find?_cons_of_neg _ (by simpa using e2)]

theorem interest_sys_close (k : Kernel) (fd g : Int) :
    (sys_close k fd).interest g = if g = fd then none else k.interest g := by
  rw [interest_eq, interest_eq]
  show ((k.epoll.filter (fun p => p.1 != fd)).find? (fun p => p.1 == g)).map (fun p => p.2) = _
  rw [find_filter_ne]
  split <;> rfl

theorem interest_epoll_ctl_del (k : Kernel) (fd g : Int) :
    (epoll_ctl_del k fd).1.interest g = if g = fd then none else k.interest g := by
  unfold epoll_ctl_del
  by_cases h : k.interest fd = none
  · rw [if_pos h]
    split
    · next hg => rw [hg, h]
    · rfl
  · rw [if_neg h, interest_eq, interest_eq]
    show ((k.epoll.filter (fun p => p.1 != fd)).find? (fun p => p.1 == g)).map (fun p => p.2) = _
    rw [find_filter_ne]
    split <;> rfl

theorem interest_epoll_ctl_mod (k : Kernel) (fd g : Int) (m : Nat) :
    (epoll_ctl_mod k fd m).1.interest g =
      if g = fd then (k.interest fd).map (fun _ => m) else k.interest g := by
  unfold epoll_ctl_mod
  by_cases h : k.interest fd = none
  · rw [if_pos h]
    split
    · next hg => rw [hg, h]; rfl
    · rfl
  · rw [if_neg h, interest_eq, interest_eq, interest_eq]
    show ((k.epoll.map (fun p => if p.1 == fd then (fd, m) else p)).find?
      (fun p => p.1 == g)).map (fun p => p.2) = _
    rw [find_map_mod]
    split
    · cases k.epoll.find? (fun p => p.1 == fd) <;> rfl
    · rfl

theorem epoll_ctl_del_of_none (k : Kernel) (fd : Int) (h : k.interest fd = none) :
    (epoll_ctl_del k fd).1 = k := by
  unfold epoll_ctl_del
  rw [if_pos h]

theorem sys_close_idem (k : Kernel) (fd : Int) :
    sys_close (epoll_ctl_del (sys_close (epoll_ctl_del k fd).1 fd) fd).1 fd =
      sys_close (epoll_ctl_del k fd).1 fd := by
  have h : (sys_close (epoll_ctl_del k fd).1 fd).interest fd = none := by
    rw [interest_sys_close]
    simp
  rw [epoll_ctl_del_of_none _ _ h]
  simp [sys_close, List.filter_filter]

namespace EpolloutDemo

theorem fill_large_length (n i : Nat) : (fill_large n i).length = n := by
  induction n generalizing i with
  | zero => rfl
  | succ m ih => simp [fill_large, ih]

theorem large_data_length : large_data.length = LARGE_DATA_SIZE :=
  fill_large_length _ _

/-- What `handle_client_read` does with the single request "large". -/
theorem submit_eq (env : Env) (s : Server) (fd : Int) (hopen : fd ∈ s.kernel.open_fds)
    (hmalloc : env.malloc s.kernel.mallocs = true) :
    handle_client_read env s fd [ReadOutcome.bytes (lit "large\n")] =
      match sys_write env { s.kernel with mallocs := s.kernel.mallocs + 1 } fd large_data
          LARGE_DATA_SIZE with
      | (k1, .wouldBlock) => add_write_state { s with kernel := k1 } fd large_data LARGE_DATA_SIZE
      | (k1, .fault) => { s with kernel := k1 }
      | (k1, .accepted n) =>
        if n < LARGE_DATA_SIZE then
          add_write_state { s with kernel := k1 } fd (large_data.drop n) (LARGE_DATA_SIZE - n)
        else { s with kernel := k1 } := by
  have h1 : sys_read s.kernel fd (BUFFER_SIZE - 1) (ReadOutcome.bytes (lit "large\n")) =
      ReadOutcome.bytes (lit "large\n") := by
    simp only [sys_read, hopen, if_true]
    decide
  have h2 : 0 < (lit "large\n").length := by decide
  have h3 : strip_newline (lit "large\n") = lit "large" := by decide
  unfold handle_client_read
  simp only [h1, h2, h3, if_true, hmalloc]
  split
  · rfl
  · rfl
  · split <;> rfl

theorem large_data_take : large_data.take LARGE_DATA_SIZE = large_data := by
  rw [List.take_of_length_le]
  rw [large_data_length]

end EpolloutDemo

theorem sys_write_accepted (env : Env) (k : Kernel) (fd : Int) (buf : List Nat) (c n : Nat)
    (hopen : fd ∈ k.open_fds) (h : env.write k.writes = WriteResp.accepted n) :
    sys_write env k fd buf c =
      ({ k with wire := k.wire ++ ((buf.take c).take n).map (fun b => (fd, b)),
                writes := k.writes + 1 }, WriteResp.accepted n) := by
  simp [sys_write, hopen, h]

theorem sys_write_would_block (env : Env) (k : Kernel) (fd : Int) (buf : List Nat) (c : Nat)
    (hopen : fd ∈ k.open_fds) (h : env.write k.writes = WriteResp.wouldBlock) :
    sys_write env k fd buf c = ({ k with writes := k.writes + 1 }, WriteResp.wouldBlock) := by
  simp [sys_write, hopen, h]

theorem delivered_wire (k k1 : Kernel) (fd : Int) (l : List Nat)
    (h : k1.wire = k.wire ++ l.map (fun b => (fd, b))) :
    k1.delivered fd = k.delivered fd ++ l := by
  have hl : ((l.map (fun b => (fd, b))).filter (fun p => p.1 == fd)).map (fun p => p.2) = l := by
    clear h
    induction l with
    | nil => rfl
    | cons a rest ih => simp [List.filter_cons, ih]
  unfold Kernel.delivered
  rw [h, List.filter_append, List.map_append, hl]

theorem delivered_same (k k1 : Kernel) (fd : Int) (h : k1.wire = k.wire) :
    k1.delivered fd = k.delivered fd := by
  unfold Kernel.delivered
  rw [h]

theorem epoll_ctl_mod_wire (k : Kernel) (fd : Int) (m : Nat) :
    (epoll_ctl_mod k fd m).1.wire = k.wire := by
  unfold epoll_ctl_mod
  split <;> rfl

theorem epoll_ctl_mod_open_fds (k : Kernel) (fd : Int) (m : Nat) :
    (epoll_ctl_mod k fd m).1.open_fds = k.open_fds := by
  unfold epoll_ctl_mod
  split <;> rfl

namespace EpolloutDemo

theorem find_write_state_concat (ws : List client_write_state) (st : client_write_state)
    (fd : Int) (hst : st.fd = fd) (h : find_write_state ws fd = none) :
    find_write_state (ws ++ [st]) fd = some ws.length :=
  find_write_state_append ws [] st fd hst ((find_write_state_none_iff ws fd).1 h)

theorem states_for_of_find_none (ws : List client_write_state) (fd : Int)
    (h : find_write_state ws fd = none) : states_for ws fd = 0 :=
  (states_for_zero_iff ws fd).2 ((find_write_state_none_iff ws fd).1 h)

theorem unsent_of_find_none (s : Server) (fd : Int)
    (h : find_write_state s.write_states fd = none) : unsent s fd = [] := by
  simp [unsent, h]

theorem unsent_of_find_some (s : Server) (fd : Int) (i : Nat) (st : client_write_state)
    (h : find_write_state s.write_states fd = some i) (hget : s.write_states[i]? = some st) :
    unsent s fd = st.data.drop st.sent_bytes := by
  simp [unsent, h, hget]

theorem add_write_state_eq (k : Kernel) (lfd : Int) (ws : List client_write_state)
    (fd : Int) (data : List Nat) (size : Nat) (hcap : ws.length < MAX_EVENTS) :
    add_write_state { kernel := k, listen_fd := lfd, write_states := ws } fd data size =
      { kernel := (epoll_ctl_mod k fd (EPOLLIN ||| EPOLLOUT ||| EPOLLRDHUP ||| EPOLLET)).1,
        listen_fd := lfd,
        write_states :=
          ws ++ [{ fd := fd, data := data.take size, total_size := size, sent_bytes := 0 }] } := by
  unfold add_write_state
  rw [if_neg (by simpa using hcap)]

/-- The registry after a state was appended for a descriptor that had none. -/
theorem appended_state (ws : List client_write_state) (st0 : client_write_state) (fd : Int)
    (hfd : st0.fd = fd) (hidle : find_write_state ws fd = none) :
    find_write_state (ws ++ [st0]) fd = some ws.length ∧
      (ws ++ [st0])[ws.length]? = some st0 ∧ states_for (ws ++ [st0]) fd ≤ 1 := by
  refine ⟨find_write_state_concat ws st0 fd hfd hidle, by simp, ?_⟩
  rw [states_for_append, states_for_of_find_none ws fd hidle, states_for_cons]
  simp [states_for, hfd]

theorem good_response_cases (r : WriteResp) (requested : Nat)
    (h : good_response r requested = true) :
    r = WriteResp.wouldBlock ∨ ∃ n, r = WriteResp.accepted n ∧ 0 < n ∧ n ≤ requested := by
  cases r with
  | wouldBlock => exact Or.inl rfl
  | fault => simp [good_response] at h
  | accepted n =>
    right
    simp only [good_response, Bool.and_eq_true, decide_eq_true_eq] at h
    exact ⟨n, rfl, h.1, h.2⟩

/-- A submission on a connection without write state: the payload is split between the
wire and the new write state. -/
theorem submit_step (env : Env) (s : Server) (fd : Int) (hopen : fd ∈ s.kernel.open_fds)
    (hadm : op_admissible env fd s WriteOp.submit = true) :
    fd ∈ (apply_op env fd s WriteOp.submit).kernel.open_fds ∧
      states_for (apply_op env fd s WriteOp.submit).write_states fd ≤ 1 ∧
      (∀ i st, find_write_state (apply_op env fd s WriteOp.submit).write_states fd = some i →
        (apply_op env fd s WriteOp.submit).write_states[i]? = some st →
        st.data.length = st.total_size) ∧
      (apply_op env fd s WriteOp.submit).kernel.delivered fd ++
          unsent (apply_op env fd s WriteOp.submit) fd =
        s.kernel.delivered fd ++ large_data := by
  simp only [op_admissible, Bool.and_eq_true, beq_iff_eq, decide_eq_true_eq] at hadm
  obtain ⟨⟨⟨hidle, hcap⟩, hmalloc⟩, hgood⟩ := hadm
  have hopen0 : fd ∈ ({ s.kernel with mallocs := s.kernel.mallocs + 1 } : Kernel).open_fds := hopen
  simp only [apply_op]
  rw [submit_eq env s fd hopen hmalloc]
  rcases good_response_cases _ _ hgood with hwb | ⟨n, hacc, hpos, hle⟩
  · rw [sys_write_would_block env _ fd _ _ hopen0 hwb]
    simp only []
    rw [add_write_state_eq _ _ _ _ _ _ hcap]
    obtain ⟨h1, h2, h3⟩ := appended_state s.write_states
      { fd := fd, data := large_data.take LARGE_DATA_SIZE, total_size := LARGE_DATA_SIZE,
        sent_bytes := 0 } fd rfl hidle
    refine ⟨?_, h3, ?_, ?_⟩
    · simp only [epoll_ctl_mod_open_fds]
      exact hopen
    · intro i st hi hst
      simp only [h1, Option.some.injEq] at hi
      subst hi
      simp only [h2, Option.some.injEq] at hst
      subst hst
      simp [large_data_length]
    · rw [unsent_of_find_some _ fd _ _ h1 h2]
      rw [delivered_same s.kernel _ fd (by simp only [epoll_ctl_mod_wire])]
      simp [large_data_take]
  · rw [sys_write_accepted env _ fd _ _ n hopen0 hacc]
    simp only []
    by_cases hn : n < LARGE_DATA_SIZE
    · rw [if_pos hn, add_write_state_eq _ _ _ _ _ _ hcap]
      obtain ⟨h1, h2, h3⟩ := appended_state s.write_states
        { fd := fd, data := (large_data.drop n).take (LARGE_DATA_SIZE - n),
          total_size := LARGE_DATA_SIZE - n, sent_bytes := 0 } fd rfl hidle
      refine ⟨?_, h3, ?_, ?_⟩
      · simp only [epoll_ctl_mod_open_fds]
        exact hopen
      · intro i st hi hst
        simp only [h1, Option.some.injEq] at hi
        subst hi
        simp only [h2, Option.some.injEq] at hst
        subst hst
        simp [large_data_length]
      · rw [unsent_of_find_some _ fd _ _ h1 h2]
        rw [delivered_wire s.kernel _ fd ((large_data.take LARGE_DATA_SIZE).take n)
          (by simp only [epoll_ctl_mod_wire])]
        have hd : (large_data.drop n).take (LARGE_DATA_SIZE - n) = large_data.drop n := by
          rw [List.take_of_length_le]
          simp [large_data_length]
        simp only [large_data_take, hd, List.drop_zero, List.append_assoc,
          List.take_append_drop]
    · have hn' : n = LARGE_DATA_SIZE := by omega
      rw [if_neg hn]
      refine ⟨hopen, ?_, ?_, ?_⟩
      · rw [states_for_of_find_none _ fd hidle]
        exact Nat.zero_le _
      · intro i st hi
        simp only [hidle] at hi
        cases hi
      · simp only [unsent, hidle]
        rw [delivered_wire s.kernel _ fd ((large_data.take LARGE_DATA_SIZE).take n) rfl]
        subst hn'
        simp [large_data_take]

/-- Overwriting the slot `find_write_state` returns with a state of the same descriptor
keeps it the slot found and keeps the number of slots of that descriptor. -/
theorem set_found (ws : List client_write_state) (fd : Int) (i : Nat)
    (st1 : client_write_state) (hf : find_write_state ws fd = some i) (hfd : st1.fd = fd) :
    find_write_state (ws.set i st1) fd = some i ∧ (ws.set i st1)[i]? = some st1 ∧
      states_for (ws.set i st1) fd = states_for ws fd := by
  obtain ⟨pre, st, post, h1, h2, h3, h4⟩ := find_write_state_split ws fd i hf
  subst h2
  have hset : ws.set pre.length st1 = pre ++ st1 :: post := by
    rw [h1]
    simp [List.set_append]
  rw [hset]
  refine ⟨find_write_state_append pre post st1 fd hfd h4, ?_, ?_⟩
  · rw [List.getElem?_append_right (le_refl _)]
    simp
  rw [h1, states_for_append, states_for_append, states_for_cons, states_for_cons]
  simp [h3, hfd]

/-- The state after `handle_client_write` retires a write state whose bytes are all on
the wire. -/
theorem retire_step (s : Server) (st st1 : client_write_state) (i : Nat) (k1 : Kernel)
    (hopen : st.fd ∈ s.kernel.open_fds) (hone : states_for s.write_states st.fd ≤ 1)
    (hf : find_write_state s.write_states st.fd = some i)
    (hget : s.write_states[i]? = some st) (hfd1 : st1.fd = st.fd)
    (ho : k1.open_fds = s.kernel.open_fds)
    (hd : k1.delivered st.fd = s.kernel.delivered st.fd ++ st.data.drop st.sent_bytes) :
    st.fd ∈ (epoll_ctl_mod k1 st.fd (EPOLLIN ||| EPOLLRDHUP ||| EPOLLET)).1.open_fds ∧
      states_for (remove_write_state (s.write_states.set i st1) st.fd) st.fd ≤ 1 ∧
      (∀ j st', find_write_state (remove_write_state (s.write_states.set i st1) st.fd) st.fd
          = some j →
        (remove_write_state (s.write_states.set i st1) st.fd)[j]? = some st' →
        st'.data.length = st'.total_size) ∧
      (epoll_ctl_mod k1 st.fd (EPOLLIN ||| EPOLLRDHUP ||| EPOLLET)).1.delivered st.fd ++
          unsent
            { kernel := (epoll_ctl_mod k1 st.fd (EPOLLIN ||| EPOLLRDHUP ||| EPOLLET)).1,
              listen_fd := s.listen_fd,
              write_states := remove_write_state (s.write_states.set i st1) st.fd } st.fd =
        s.kernel.delivered st.fd ++ unsent s st.fd := by
  have hsf := set_found s.write_states st.fd i st1 hf hfd1
  have hnone : find_write_state (remove_write_state (s.write_states.set i st1) st.fd) st.fd
      = none := find_remove_write_state _ _ (by rw [hsf.2.2]; exact hone)
  refine ⟨?_, ?_, ?_, ?_⟩
  · rw [epoll_ctl_mod_open_fds, ho]
    exact hopen
  · rw [states_for_of_find_none _ _ hnone]
    exact Nat.zero_le _
  · intro j st' hj
    rw [hnone] at hj
    cases hj
  · rw [unsent_of_find_some s _ i st hf hget,
      delivered_same k1 _ _ (epoll_ctl_mod_wire k1 _ _), hd]
    simp only [unsent, hnone, List.append_nil]

/-- A drain that finds the write state `st`. -/
theorem drain_found (env : Env) (s : Server) (st : client_write_state) (i : Nat)
    (hopen : st.fd ∈ s.kernel.open_fds) (hone : states_for s.write_states st.fd ≤ 1)
    (hf : find_write_state s.write_states st.fd = some i)
    (hget : s.write_states[i]? = some st) (hdata : st.data.length = st.total_size)
    (hadm : st.sent_bytes < st.total_size →
      good_response (env.write s.kernel.writes) (st.total_size - st.sent_bytes) = true) :
    st.fd ∈ (handle_client_write env s st.fd).kernel.open_fds ∧
      states_for (handle_client_write env s st.fd).write_states st.fd ≤ 1 ∧
      (∀ j st', find_write_state (handle_client_write env s st.fd).write_states st.fd = some j →
        (handle_client_write env s st.fd).write_states[j]? = some st' →
        st'.data.length = st'.total_size) ∧
      (handle_client_write env s st.fd).kernel.delivered st.fd ++
          unsent (handle_client_write env s st.fd) st.fd =
        s.kernel.delivered st.fd ++ unsent s st.fd := by
  rw [handle_client_write_eq]
  simp only [hf, hget]
  by_cases hp : st.sent_bytes < st.total_size
  · simp only [hp, if_true]
    rcases good_response_cases _ _ (hadm hp) with hwb | ⟨n, hacc, hpos, hle⟩
    · rw [sys_write_would_block env _ _ _ _ hopen hwb]
      simp only [set_same _ _ _ hget, show ¬ ((1 : Int) = 0) by decide,
        show ¬ ((1 : Int) = -1) by decide, if_false]
      refine ⟨hopen, hone, ?_, ?_⟩
      · intro j st' hj hst'
        rw [hf] at hj
        cases hj
        rw [hget] at hst'
        cases hst'
        exact hdata
      · rw [delivered_same s.kernel _ _ rfl]
        rfl
    · rw [sys_write_accepted env _ _ _ _ n hopen hacc]
      have hn0 : n ≠ 0 := by omega
      simp only [hn0, if_false]
      have htake : ((st.data.drop st.sent_bytes).take (st.total_size - st.sent_bytes)).take n
          = (st.data.drop st.sent_bytes).take n := by
        rw [List.take_take, Nat.min_eq_left hle]
      by_cases hn : n < st.total_size - st.sent_bytes
      · simp only [hn, if_true, show ¬ ((1 : Int) = 0) by decide,
          show ¬ ((1 : Int) = -1) by decide, if_false]
        obtain ⟨g1, g2, g3⟩ := set_found s.write_states st.fd i
          { st with sent_bytes := st.sent_bytes + n } hf rfl
        refine ⟨hopen, by rw [g3]; exact hone, ?_, ?_⟩
        · intro j st' hj hst'
          rw [g1] at hj
          cases hj
          rw [g2] at hst'
          cases hst'
          exact hdata
        · rw [unsent_of_find_some s _ i st hf hget, unsent_of_find_some _ _ i _ g1 g2,
            delivered_wire s.kernel _ _ _ rfl, htake, List.append_assoc]
          congr 1
          show List.take n (List.drop st.sent_bytes st.data) ++
            List.drop (st.sent_bytes + n) st.data = _
          rw [← List.drop_drop]
          exact List.take_append_drop n _
      · simp only [hn, if_false, if_true]
        apply retire_step s st { st with sent_bytes := st.sent_bytes + n } i
          { s.kernel with
            wire := s.kernel.wire ++
              (((st.data.drop st.sent_bytes).take (st.total_size - st.sent_bytes)).take n).map
                (fun b => (st.fd, b)),
            writes := s.kernel.writes + 1 } hopen hone hf hget rfl rfl
        rw [delivered_wire s.kernel _ _ _ rfl, htake]
        congr 1
        apply List.take_of_length_le
        simp only [List.length_drop, hdata]
        omega
  · simp only [hp, if_false, if_true]
    apply retire_step s st st i s.kernel hopen hone hf hget rfl rfl
    have : st.data.drop st.sent_bytes = [] := by
      apply List.drop_eq_nil_of_le
      omega
    rw [this, List.append_nil]

/-- A drain on a connection with at most one write state: bytes move from the state to
the wire, none is lost. -/
theorem drain_step (env : Env) (s : Server) (fd : Int) (hopen : fd ∈ s.kernel.open_fds)
    (hone : states_for s.write_states fd ≤ 1)
    (hlen : ∀ i st, find_write_state s.write_states fd = some i →
      s.write_states[i]? = some st → st.data.length = st.total_size)
    (hadm : op_admissible env fd s WriteOp.drain = true) :
    fd ∈ (apply_op env fd s WriteOp.drain).kernel.open_fds ∧
      states_for (apply_op env fd s WriteOp.drain).write_states fd ≤ 1 ∧
      (∀ i st, find_write_state (apply_op env fd s WriteOp.drain).write_states fd = some i →
        (apply_op env fd s WriteOp.drain).write_states[i]? = some st →
        st.data.length = st.total_size) ∧
      (apply_op env fd s WriteOp.drain).kernel.delivered fd ++
          unsent (apply_op env fd s WriteOp.drain) fd =
        s.kernel.delivered fd ++ unsent s fd := by
  simp only [apply_op]
  cases hf : find_write_state s.write_states fd with
  | none =>
    have hs : handle_client_write env s fd = s := by
      unfold handle_client_write
      simp only [hf]
    rw [hs]
    exact ⟨hopen, hone, hlen, rfl⟩
  | some i =>
    obtain ⟨st, hget, hfd⟩ := find_write_state_some _ _ _ hf
    subst hfd
    simp only [op_admissible, hf, hget] at hadm
    apply drain_found env s st i hopen hone hf hget (hlen i st hf hget)
    intro hp
    simpa [hp] using hadm

/-- Over an admissible sequence of operations on `fd`, the bytes on the wire followed by
the bytes still buffered are the bytes that were there before followed by the
submitted payloads. -/
theorem run_ops_conserves (env : Env) (fd : Int) (ops : List WriteOp) (s : Server)
    (hopen : fd ∈ s.kernel.open_fds) (hone : states_for s.write_states fd ≤ 1)
    (hlen : ∀ i st, find_write_state s.write_states fd = some i →
      s.write_states[i]? = some st → st.data.length = st.total_size)
    (hadm : run_admissible env fd s ops = true) :
    (run_ops env fd s ops).kernel.delivered fd ++ unsent (run_ops env fd s ops) fd =
      s.kernel.delivered fd ++ unsent s fd ++ submitted ops := by
  induction ops generalizing s with
  | nil => simp [run_ops, submitted]
  | cons op rest ih =>
    simp only [run_admissible, Bool.and_eq_true] at hadm
    obtain ⟨hop, hrest⟩ := hadm
    cases op with
    | submit =>
      obtain ⟨h1, h2, h3, h4⟩ := submit_step env s fd hopen hop
      have hidle : find_write_state s.write_states fd = none := by
        simp only [op_admissible, Bool.and_eq_true, beq_iff_eq] at hop
        exact hop.1.1.1
      rw [run_ops, ih _ h1 h2 h3 hrest, h4, unsent_of_find_none s fd hidle]
      simp [submitted]
    | drain =>
      obtain ⟨h1, h2, h3, h4⟩ := drain_step env s fd hopen hone hlen hop
      rw [run_ops, ih _ h1 h2 h3 hrest, h4]
      simp [submitted]

end EpolloutDemo

theorem trickle_admissible :
    EpolloutDemo.run_admissible env_trickle 5 demo5
      [WriteOp.submit, WriteOp.drain, WriteOp.drain] = true := by
  show (EpolloutDemo.op_admissible env_trickle 5 demo5 WriteOp.submit &&
    (EpolloutDemo.op_admissible env_trickle 5
        (EpolloutDemo.handle_client_read env_trickle demo5 5 [ReadOutcome.bytes (lit "large\n")])
        WriteOp.drain &&
      (EpolloutDemo.op_admissible env_trickle 5
          (EpolloutDemo.handle_client_write env_trickle
            (EpolloutDemo.handle_client_read env_trickle demo5 5
              [ReadOutcome.bytes (lit "large\n")]) 5)
          WriteOp.drain && true))) = true
  rw [EpolloutDemo.handle_client_write_eq]
  decide

theorem trickle_done :
    EpolloutDemo.find_write_state
      (EpolloutDemo.run_ops env_trickle 5 demo5
        [WriteOp.submit, WriteOp.drain, WriteOp.drain]).write_states 5 = none := by
  show EpolloutDemo.find_write_state
    (EpolloutDemo.handle_client_write env_trickle
      (EpolloutDemo.handle_client_write env_trickle
        (EpolloutDemo.handle_client_read env_trickle demo5 5
          [ReadOutcome.bytes (lit "large\n")]) 5) 5).write_states 5 = none
  rw [EpolloutDemo.handle_client_write_eq, EpolloutDemo.handle_client_write_eq]
  decide

/-! ## The teardown on a well-formed registry -/

/-- In every state whose registry holds at most one slot for `fd`,
running the teardown of `epollout_demo` twice on `fd` gives the same state as running it
once; `handle_client_disconnect` of `epoll_server` has that property in every state. -/
theorem disconnect_twice (s : EpolloutDemo.Server) (t : EpollServer.Server) (fd : Int)
    (h : states_for s.write_states fd ≤ 1) :
    EpolloutDemo.disconnect (EpolloutDemo.disconnect s fd) fd = EpolloutDemo.disconnect s fd ∧
      EpollServer.handle_client_disconnect (EpollServer.handle_client_disconnect t fd) fd =
        EpollServer.handle_client_disconnect t fd := by
  constructor
  · have hf := EpolloutDemo.find_remove_write_state s.write_states fd h
    simp only [EpolloutDemo.disconnect, sys_close_idem,
      EpolloutDemo.remove_write_state_none _ _ hf]
  · simp only [EpollServer.handle_client_disconnect, sys_close_idem]

/-- The teardown run twice on client 5 with one pending state. -/
theorem disconnect_twice_witness :
    EpolloutDemo.disconnect (EpolloutDemo.disconnect demo5_pending 5) 5 =
        EpolloutDemo.disconnect demo5_pending 5 ∧
      EpollServer.handle_client_disconnect (EpollServer.handle_client_disconnect server5 5) 5 =
        EpollServer.handle_client_disconnect server5 5 :=
  disconnect_twice demo5_pending server5 5 (by decide)

/-- In every state whose registry holds at most one slot for `fd`, the
teardown leaves no write state for `fd`, no epoll registration of `fd` and `fd` closed;
the hang-up branch of `main` and the two read-failure exits of `handle_client_read` end
in exactly that state. -/
theorem disconnect_clears_connection (env : Env) (s : EpolloutDemo.Server) (fd : Int)
    (h : states_for s.write_states fd ≤ 1) :
    EpolloutDemo.find_write_state (EpolloutDemo.disconnect s fd).write_states fd = none ∧
      (EpolloutDemo.disconnect s fd).kernel.interest fd = none ∧
      fd ∉ (EpolloutDemo.disconnect s fd).kernel.open_fds ∧
      (∀ mask reads, fd ≠ s.listen_fd →
        has_flag mask (EPOLLHUP ||| EPOLLERR ||| EPOLLRDHUP) = true →
        (EpolloutDemo.process_event env s ⟨fd, mask, reads⟩).1 = EpolloutDemo.disconnect s fd) ∧
      (∀ rest, fd ∈ s.kernel.open_fds →
        EpolloutDemo.handle_client_read env s fd (ReadOutcome.bytes [] :: rest) =
          EpolloutDemo.disconnect s fd) ∧
      (∀ rest, EpolloutDemo.handle_client_read env s fd (ReadOutcome.fault :: rest) =
          EpolloutDemo.disconnect s fd) := by
  refine ⟨EpolloutDemo.find_remove_write_state s.write_states fd h, ?_, ?_, ?_, ?_, ?_⟩
  · show (sys_close (epoll_ctl_del s.kernel fd).1 fd).interest fd = none
    rw [interest_sys_close]
    simp
  · simp [EpolloutDemo.disconnect, sys_close]
  · intro mask reads h1 h2
    simp [EpolloutDemo.process_event, h1, h2]
  · intro rest hopen
    simp [EpolloutDemo.handle_client_read, sys_read, hopen]
  · intro rest
    by_cases hopen : fd ∈ s.kernel.open_fds <;>
      simp [EpolloutDemo.handle_client_read, sys_read, hopen]

/-- The teardown of client 5 with one pending state. -/
theorem disconnect_clears_connection_witness :
    EpolloutDemo.find_write_state (EpolloutDemo.disconnect demo5_pending 5).write_states 5
        = none ∧
      (EpolloutDemo.disconnect demo5_pending 5).kernel.interest 5 = none ∧
      5 ∉ (EpolloutDemo.disconnect demo5_pending 5).kernel.open_fds :=
  ⟨(disconnect_clears_connection env_block demo5_pending 5 (by decide)).1,
    (disconnect_clears_connection env_block demo5_pending 5 (by decide)).2.1,
    (disconnect_clears_connection env_block demo5_pending 5 (by decide)).2.2.1⟩

/-! ## Auxiliary lemmas for the read path -/

/-- What `remove_write_state` takes out of the registry is the slot `find_write_state`
returns: the registry is a rearrangement of that slot and of what is left. -/
theorem EpolloutDemo.remove_write_state_perm (ws : List EpolloutDemo.client_write_state)
    (fd : Int) (i : Nat) (st : EpolloutDemo.client_write_state)
    (hf : EpolloutDemo.find_write_state ws fd = some i) (hget : ws[i]? = some st) :
    List.Perm ws (st :: EpolloutDemo.remove_write_state ws fd) := by
  obtain ⟨pre, st0, post, h1, h2, _, _, h5⟩ :=
    EpolloutDemo.remove_write_state_shape ws fd i hf
  have hst : st0 = st := by
    subst h2
    rw [h1, List.getElem?_append_right (le_refl _)] at hget
    simpa using hget
  subst hst
  rcases h5 with ⟨hp, hr⟩ | ⟨p, l, hp, hr⟩
  · rw [hr, h1, hp]
    exact List.perm_append_singleton st0 pre
  · rw [hr, h1, hp]
    exact List.perm_middle.trans
      (List.Perm.cons st0 (List.Perm.append_left pre (List.perm_append_singleton l p)))

/-- The reply to a request that fills the read buffer and is no `echo` command: the
prefix "Echo: " and the first 4089 bytes of the request; the newline is cut off. -/
theorem EpollServer.process_message_full_buffer (now : Tm) (r : List Nat)
    (hlen : r.length = 4095) (hecho : r.take 5 ≠ lit "echo ") :
    EpollServer.process_message now r EpollServer.BUFFER_SIZE = lit "Echo: " ++ r.take 4089 := by
  have hne : ∀ s : String, (lit s).length < 4095 → r ≠ lit s := by
    intro s hs h
    rw [h] at hlen
    omega
  have h0 : ¬ r.length = 0 := by omega
  have h1 : r ≠ lit "ping" := hne _ (by decide)
  have h2 : r ≠ lit "time" := hne _ (by decide)
  have h3 : r ≠ lit "quit" := hne _ (by decide)
  have h4 : r ≠ lit "exit" := hne _ (by decide)
  have h5 : r ≠ lit "help" := hne _ (by decide)
  have h6 : (lit "Echo: ").length = 6 := by decide
  unfold EpollServer.process_message
  simp only [h0, h1, h2, h3, h4, h5, hecho, if_false, or_self, snprintf,
    EpollServer.BUFFER_SIZE]
  rw [List.append_assoc, List.take_append_eq_append_take, List.take_append_eq_append_take]
  have e1 : List.take (4096 - 1) (lit "Echo: ") = lit "Echo: " :=
    List.take_of_length_le (by rw [h6]; omega)
  have e2 : List.take (4096 - 1 - (lit "Echo: ").length - r.length) (lit "\n") = [] := by
    rw [h6, hlen]
    rfl
  rw [e1, e2, h6, List.append_nil]

/-- What `handle_client_message` does with one chunk of data: one call of
`process_message` on the whole chunk and one `write` of its response. -/
theorem EpollServer.message_step (env : Env) (t : EpollServer.Server) (fd : Int)
    (bs : List Nat) (rest : List ReadOutcome) (hopen : fd ∈ t.kernel.open_fds)
    (hbs : bs ≠ []) :
    EpollServer.handle_client_message env t fd (ReadOutcome.bytes bs :: rest) =
      match sys_write env t.kernel fd
          (EpollServer.process_message (env.localtime t.kernel.writes)
            (strip_newline (bs.take (EpollServer.BUFFER_SIZE - 1))) EpollServer.BUFFER_SIZE)
          (EpollServer.process_message (env.localtime t.kernel.writes)
            (strip_newline (bs.take (EpollServer.BUFFER_SIZE - 1)))
            EpollServer.BUFFER_SIZE).length with
      | (k1, .fault) => EpollServer.handle_client_disconnect { t with kernel := k1 } fd
      | (k1, .wouldBlock) => EpollServer.handle_client_message env { t with kernel := k1 } fd rest
      | (k1, .accepted _) =>
        EpollServer.handle_client_message env { t with kernel := k1 } fd rest := by
  have hlen : 0 < (bs.take (EpollServer.BUFFER_SIZE - 1)).length := by
    cases bs with
    | nil => exact absurd rfl hbs
    | cons a l => simp [EpollServer.BUFFER_SIZE]
  rw [EpollServer.handle_client_message]
  simp only [sys_read, hopen, if_true, hlen]

theorem sys_write_epoll (env : Env) (k : Kernel) (fd : Int) (buf : List Nat) (c : Nat) :
    (sys_write env k fd buf c).1.epoll = k.epoll := by
  unfold sys_write
  split
  · split <;> rfl
  · rfl

theorem sys_write_open_fds (env : Env) (k : Kernel) (fd : Int) (buf : List Nat) (c : Nat) :
    (sys_write env k fd buf c).1.open_fds = k.open_fds := by
  unfold sys_write
  split
  · split <;> rfl
  · rfl

theorem sys_write_fault (env : Env) (k : Kernel) (fd : Int) (buf : List Nat) (c : Nat)
    (h : env.write k.writes = WriteResp.fault) :
    sys_write env k fd buf c = ({ k with writes := k.writes + 1 }, WriteResp.fault) := by
  unfold sys_write
  split
  · rw [h]
  · rfl

/-- What `handle_client_read` does with one chunk of data. -/
theorem EpolloutDemo.read_step (env : Env) (s : EpolloutDemo.Server) (fd : Int)
    (bs : List Nat) (rest : List ReadOutcome) (hopen : fd ∈ s.kernel.open_fds)
    (hbs : bs ≠ []) :
    EpolloutDemo.handle_client_read env s fd (ReadOutcome.bytes bs :: rest) =
      if strip_newline (bs.take (EpolloutDemo.BUFFER_SIZE - 1)) = lit "large" then
        if env.malloc s.kernel.mallocs then
          match sys_write env { s.kernel with mallocs := s.kernel.mallocs + 1 } fd
              EpolloutDemo.large_data EpolloutDemo.LARGE_DATA_SIZE with
          | (k1, .wouldBlock) =>
            EpolloutDemo.handle_client_read env
              (EpolloutDemo.add_write_state { s with kernel := k1 } fd EpolloutDemo.large_data
                EpolloutDemo.LARGE_DATA_SIZE) fd rest
          | (k1, .fault) => EpolloutDemo.handle_client_read env { s with kernel := k1 } fd rest
          | (k1, .accepted n) =>
            if n < EpolloutDemo.LARGE_DATA_SIZE then
              EpolloutDemo.handle_client_read env
                (EpolloutDemo.add_write_state { s with kernel := k1 } fd
                  (EpolloutDemo.large_data.drop n) (EpolloutDemo.LARGE_DATA_SIZE - n)) fd rest
            else EpolloutDemo.handle_client_read env { s with kernel := k1 } fd rest
        else
          { s with
            kernel := (sys_write env { s.kernel with mallocs := s.kernel.mallocs + 1 } fd
              (lit "Memory allocation failed\n")
              (lit "Memory allocation failed\n").length).1 }
      else
        EpolloutDemo.handle_client_read env
          { s with
            kernel := (sys_write env s.kernel fd
              (snprintf EpolloutDemo.BUFFER_SIZE
                (lit "Echo: " ++ strip_newline (bs.take (EpolloutDemo.BUFFER_SIZE - 1)) ++
                  lit "\n"))
              (snprintf EpolloutDemo.BUFFER_SIZE
                (lit "Echo: " ++ strip_newline (bs.take (EpolloutDemo.BUFFER_SIZE - 1)) ++
                  lit "\n")).length).1 } fd rest := by
  have hlen : 0 < (bs.take (EpolloutDemo.BUFFER_SIZE - 1)).length := by
    cases bs with
    | nil => exact absurd rfl hbs
    | cons a l => simp [EpolloutDemo.BUFFER_SIZE]
  rw [EpolloutDemo.handle_client_read]
  simp only [sys_read, hopen, if_true, hlen]

/-- C1 (as amended): on a connection that starts without write state, take any sequence of
large-payload submissions and `handle_client_write` calls in which every submission
finds the connection without write state, a free registry slot and memory for the
payload, and every `write` is answered by a full write, a short write or would-block.
Once the connection has no write state left, the bytes the transport accepted for it
are what it had accepted before followed by the submitted payloads in submission order. -/
theorem no_loss_for_idle_submissions (env : Env) (s : EpolloutDemo.Server) (fd : Int)
    (ops : List WriteOp) (hopen : fd ∈ s.kernel.open_fds)
    (hidle : EpolloutDemo.find_write_state s.write_states fd = none)
    (hadm : EpolloutDemo.run_admissible env fd s ops = true)
    (hdone : EpolloutDemo.find_write_state (EpolloutDemo.run_ops env fd s ops).write_states fd
      = none) :
    (EpolloutDemo.run_ops env fd s ops).kernel.delivered fd =
      s.kernel.delivered fd ++ EpolloutDemo.submitted ops := by
  have h := EpolloutDemo.run_ops_conserves env fd ops s hopen
    (by rw [EpolloutDemo.states_for_of_find_none _ _ hidle]; exact Nat.zero_le _)
    (by intro i st hi; rw [hidle] at hi; cases hi) hadm
  rw [EpolloutDemo.unsent_of_find_none _ fd hdone,
    EpolloutDemo.unsent_of_find_none s fd hidle] at h
  simpa using h

/-- C1 at `demo5`: one submission of which the transport takes 4 bytes, a drain that
finds the transport full and a drain that delivers the rest. -/
theorem no_loss_for_idle_submissions_witness :
    (EpolloutDemo.run_ops env_trickle 5 demo5
        [WriteOp.submit, WriteOp.drain, WriteOp.drain]).kernel.delivered 5 =
      demo5.kernel.delivered 5 ++
        EpolloutDemo.submitted [WriteOp.submit, WriteOp.drain, WriteOp.drain] :=
  no_loss_for_idle_submissions env_trickle demo5 5
    [WriteOp.submit, WriteOp.drain, WriteOp.drain] (by decide) (by decide)
    trickle_admissible trickle_done

/-- C1 (counterexample): three runs on client 5 that end without write state and with
other bytes on the wire than the submitted payloads. An "Echo: hi" reply of which the
transport takes 3 bytes loses the other 6. A second "large" request sent while the first
payload is buffered puts 3 bytes of the second payload ahead of the first. A "large"
request met by a full transport and a full registry loses the whole payload. -/
theorem bytes_lost_or_reordered :
    (EpolloutDemo.find_write_state
          (EpolloutDemo.handle_client_read env_short demo5 5
            [ReadOutcome.bytes (lit "hi\n")]).write_states 5 = none ∧
        (EpolloutDemo.handle_client_read env_short demo5 5
            [ReadOutcome.bytes (lit "hi\n")]).kernel.delivered 5 = lit "Ech") ∧
      (EpolloutDemo.find_write_state
          (EpolloutDemo.handle_client_write env_overtake
            (EpolloutDemo.handle_client_write env_overtake
              (EpolloutDemo.handle_client_read env_overtake demo5 5
                [ReadOutcome.bytes (lit "large\n"), ReadOutcome.bytes (lit "large\n")])
              5) 5).write_states 5 = none ∧
        ((EpolloutDemo.handle_client_write env_overtake
            (EpolloutDemo.handle_client_write env_overtake
              (EpolloutDemo.handle_client_read env_overtake demo5 5
                [ReadOutcome.bytes (lit "large\n"), ReadOutcome.bytes (lit "large\n")])
              5) 5).kernel.delivered 5).take 4 = lit "ABCA" ∧
        (EpolloutDemo.large_data ++ EpolloutDemo.large_data).take 4 = lit "ABCD") ∧
      (EpolloutDemo.find_write_state
          (EpolloutDemo.handle_client_read env_block demo_full 5
            [ReadOutcome.bytes (lit "large\n")]).write_states 5 = none ∧
        (EpolloutDemo.handle_client_read env_block demo_full 5
            [ReadOutcome.bytes (lit "large\n")]).kernel.delivered 5 = [] ∧
        EpolloutDemo.large_data.take 4 = lit "ABCD") := by
  refine ⟨by decide, ?_, by decide⟩
  rw [EpolloutDemo.handle_client_write_eq, EpolloutDemo.handle_client_write_eq]
  decide

/-- C2 (failing input): client 5 sends "large" twice while the transport is full; on the
next writable event the transport takes the whole first payload. `handle_client_write`
then registers the mask without `EPOLLOUT` although the second payload is still in the
registry with nothing sent. -/
theorem write_interest_lost :
    (EpolloutDemo.handle_client_write env_block_twice
        (EpolloutDemo.handle_client_read env_block_twice demo5 5
          [ReadOutcome.bytes (lit "large\n"), ReadOutcome.bytes (lit "large\n")])
        5).kernel.interest 5 = some (EPOLLIN ||| EPOLLRDHUP ||| EPOLLET) ∧
      has_flag (EPOLLIN ||| EPOLLRDHUP ||| EPOLLET) EPOLLOUT = false ∧
      (EpolloutDemo.handle_client_write env_block_twice
        (EpolloutDemo.handle_client_read env_block_twice demo5 5
          [ReadOutcome.bytes (lit "large\n"), ReadOutcome.bytes (lit "large\n")])
        5).write_states.map (fun st => (st.fd, st.total_size, st.sent_bytes)) =
        [(5, EpolloutDemo.LARGE_DATA_SIZE, 0)] ∧
      ¬ out_iff_pending
        (EpolloutDemo.handle_client_write env_block_twice
          (EpolloutDemo.handle_client_read env_block_twice demo5 5
            [ReadOutcome.bytes (lit "large\n"), ReadOutcome.bytes (lit "large\n")])
          5) 5 := by
  have h1 : (EpolloutDemo.handle_client_write env_block_twice
        (EpolloutDemo.handle_client_read env_block_twice demo5 5
          [ReadOutcome.bytes (lit "large\n"), ReadOutcome.bytes (lit "large\n")])
        5).kernel.interest 5 = some (EPOLLIN ||| EPOLLRDHUP ||| EPOLLET) := by
    rw [EpolloutDemo.handle_client_write_eq]
    decide
  have h2 : ∃ st ∈ (EpolloutDemo.handle_client_write env_block_twice
        (EpolloutDemo.handle_client_read env_block_twice demo5 5
          [ReadOutcome.bytes (lit "large\n"), ReadOutcome.bytes (lit "large\n")])
        5).write_states, st.fd = 5 ∧ st.sent_bytes < st.total_size := by
    rw [EpolloutDemo.handle_client_write_eq]
    decide
  refine ⟨h1, by decide, ?_, ?_⟩
  · rw [EpolloutDemo.handle_client_write_eq]
    decide
  · intro h
    obtain ⟨m, hm, hflag⟩ := h.2 h2
    rw [h1] at hm
    cases hm
    revert hflag
    decide

namespace EpolloutDemo

/-- C3 (as amended): on a short write `0 < n < remaining`, `continue_writing` makes exactly
that one `write` call, advances `sent_bytes` by `n` and returns 1; it does not attempt the
new remainder in the same invocation. -/
theorem continue_writing_short_write (env : Env) (k : Kernel) (st : client_write_state)
    (n : Nat) (hopen : st.fd ∈ k.open_fds) (hpend : st.sent_bytes < st.total_size)
    (hresp : env.write k.writes = WriteResp.accepted n) (hpos : 0 < n)
    (hshort : n < st.total_size - st.sent_bytes) :
    continue_writing env k st =
      ({ k with
          wire := k.wire ++ ((st.data.drop st.sent_bytes).take n).map (fun b => (st.fd, b)),
          writes := k.writes + 1 },
        { st with sent_bytes := st.sent_bytes + n }, 1) := by
  have hn0 : n ≠ 0 := by omega
  have hmin : min n (st.total_size - st.sent_bytes) = n := by omega
  rw [continue_writing_eq]
  simp [sys_write, hopen, hpend, hresp, hn0, hshort, List.take_take, hmin]

/-- C3 at `state5` with a transport that takes 3 of the 5 bytes. -/
theorem continue_writing_short_write_witness :
    continue_writing env_short kernel5 state5 =
      ({ kernel5 with wire := [(5, 1), (5, 2), (5, 3)], writes := 1 },
        { state5 with sent_bytes := 3 }, 1) :=
  continue_writing_short_write env_short kernel5 state5 3 (by decide) (by decide) rfl
    (by decide) (by decide)

/-- C3 (counterexample): with 5 bytes pending and a transport that takes 3 bytes and is
ready to take the other 2, one invocation of `continue_writing` issues a single `write`,
leaves 2 bytes unsent and returns 1. -/
theorem continue_writing_no_retry :
    env_short.write kernel5.writes = WriteResp.accepted 3 ∧
      env_short.write (kernel5.writes + 1) = WriteResp.accepted 2 ∧
      (continue_writing env_short kernel5 state5).1.writes = kernel5.writes + 1 ∧
      (continue_writing env_short kernel5 state5).2.1.sent_bytes = 3 ∧
      (continue_writing env_short kernel5 state5).2.1.total_size = 5 ∧
      (continue_writing env_short kernel5 state5).2.2 = 1 := by
  rw [continue_writing_eq]
  decide

/-- C4: for a pending write state `st` on an open descriptor, when the next `write` would
block, `continue_writing` stops after that one attempt and returns 1 with the state
unchanged; and when `st` is the state of its descriptor in the registry,
`handle_client_write` leaves the registry and every epoll registration as they were. -/
theorem would_block_keeps_state (env : Env) (s : Server) (st : client_write_state)
    (hpend : st.sent_bytes < st.total_size) (hopen : st.fd ∈ s.kernel.open_fds)
    (hresp : env.write s.kernel.writes = WriteResp.wouldBlock) :
    continue_writing env s.kernel st = ({ s.kernel with writes := s.kernel.writes + 1 }, st, 1) ∧
      ∀ i, find_write_state s.write_states st.fd = some i → s.write_states[i]? = some st →
        handle_client_write env s st.fd =
          { s with kernel := { s.kernel with writes := s.kernel.writes + 1 } } := by
  have hcw : continue_writing env s.kernel st =
      ({ s.kernel with writes := s.kernel.writes + 1 }, st, 1) := by
    rw [continue_writing_eq]
    simp [sys_write, hopen, hpend, hresp]
  refine ⟨hcw, ?_⟩
  intro i hfind hget
  unfold handle_client_write
  simp [hfind, hget, hcw, set_same _ _ _ hget]

/-- C4 at `demo5_pending` with a full transport. -/
theorem would_block_keeps_state_witness :
    continue_writing env_block demo5_pending.kernel state5 =
        ({ kernel5_out with writes := 1 }, state5, 1) ∧
      handle_client_write env_block demo5_pending 5 =
        { demo5_pending with kernel := { kernel5_out with writes := 1 } } :=
  ⟨(would_block_keeps_state env_block demo5_pending state5 (by decide) (by decide) rfl).1,
    (would_block_keeps_state env_block demo5_pending state5 (by decide) (by decide) rfl).2
      0 rfl rfl⟩

end EpolloutDemo

/-- C5 (failing input): client 5 sends "large" twice while the transport is full, which
leaves two slots for 5. One teardown leaves one of them in the registry, a second
teardown removes it: the two end states differ. -/
theorem disconnect_twice_differs :
    (EpolloutDemo.disconnect demo5_twice 5).write_states.length = 1 ∧
      (EpolloutDemo.disconnect (EpolloutDemo.disconnect demo5_twice 5) 5).write_states.length
        = 0 ∧
      EpolloutDemo.disconnect (EpolloutDemo.disconnect demo5_twice 5) 5 ≠
        EpolloutDemo.disconnect demo5_twice 5 := by
  refine ⟨by decide, by decide, ?_⟩
  intro h
  have := congrArg (fun s => s.write_states.length) h
  revert this
  decide

/-- C6 (as amended): the event loops have no liveness check. Over any batch the calls
made are those each event owes to its own descriptor and mask, in array order, so the
second of two events for one client is dispatched even when the first disconnected it. -/
theorem events_dispatched_by_mask (env : Env) (s : EpolloutDemo.Server)
    (t : EpollServer.Server) (batch : List EpolloutDemo.Ready)
    (batch2 : List EpollServer.Ready) :
    (EpolloutDemo.process_events env s batch).2 =
        batch.flatMap (EpolloutDemo.calls_by_mask s.listen_fd) ∧
      (EpollServer.process_events env t batch2).2 =
        batch2.flatMap (EpollServer.calls_by_mask t.listen_fd) :=
  ⟨EpolloutDemo.process_events_calls env batch s, EpollServer.server_process_events_calls env batch2 t⟩

/-- C6 (counterexample): a batch holds a hang-up event and then a readable event for
client 5. Handling the first closes and unregisters 5, and the second is still
dispatched: the read handler runs on the closed descriptor in both servers. -/
theorem stale_event_dispatched :
    (EpolloutDemo.process_event env_block demo5 ⟨5, EPOLLHUP, []⟩).2 =
        [EpolloutDemo.Call.disconnect 5] ∧
      5 ∉ (EpolloutDemo.process_event env_block demo5 ⟨5, EPOLLHUP, []⟩).1.kernel.open_fds ∧
      (EpolloutDemo.process_event env_block demo5 ⟨5, EPOLLHUP, []⟩).1.kernel.interest 5 = none ∧
      (EpolloutDemo.process_events env_block demo5
          [⟨5, EPOLLHUP, []⟩, ⟨5, EPOLLIN, [ReadOutcome.bytes (lit "hi\n")]⟩]).2 =
        [EpolloutDemo.Call.disconnect 5, EpolloutDemo.Call.client_read 5] ∧
      (EpollServer.process_event env_block server5 ⟨5, EPOLLHUP, []⟩).2 =
        [EpollServer.Call.client_disconnect 5] ∧
      5 ∉ (EpollServer.process_event env_block server5 ⟨5, EPOLLHUP, []⟩).1.kernel.open_fds ∧
      (EpollServer.process_events env_block server5
          [⟨5, EPOLLHUP, []⟩, ⟨5, EPOLLIN, [ReadOutcome.bytes (lit "hi\n")]⟩]).2 =
        [EpollServer.Call.client_disconnect 5, EpollServer.Call.client_message 5] := by
  decide

/-- C7 (failing input): client 5 sends "large" twice while the transport is full and then
hangs up, all in one batch. After the teardown `find_write_state` still returns a slot of
the old connection although 5 is closed and unregistered. -/
theorem stale_state_survives_disconnect :
    (EpolloutDemo.process_events env_block demo5
        [⟨5, EPOLLIN, [ReadOutcome.bytes (lit "large\n"), ReadOutcome.bytes (lit "large\n")]⟩,
          ⟨5, EPOLLRDHUP, []⟩]).2 =
        [EpolloutDemo.Call.client_read 5, EpolloutDemo.Call.disconnect 5] ∧
      EpolloutDemo.find_write_state
        (EpolloutDemo.process_events env_block demo5
          [⟨5, EPOLLIN, [ReadOutcome.bytes (lit "large\n"), ReadOutcome.bytes (lit "large\n")]⟩,
            ⟨5, EPOLLRDHUP, []⟩]).1.write_states 5 = some 0 ∧
      (EpolloutDemo.process_events env_block demo5
        [⟨5, EPOLLIN, [ReadOutcome.bytes (lit "large\n"), ReadOutcome.bytes (lit "large\n")]⟩,
          ⟨5, EPOLLRDHUP, []⟩]).1.kernel.interest 5 = none ∧
      5 ∉ (EpolloutDemo.process_events env_block demo5
        [⟨5, EPOLLIN, [ReadOutcome.bytes (lit "large\n"), ReadOutcome.bytes (lit "large\n")]⟩,
          ⟨5, EPOLLRDHUP, []⟩]).1.kernel.open_fds := by
  decide

/-- C8 (failing input): client 5 sends "large" twice while every `write` would block.
`add_write_state` appends a slot each time, so the registry ends with two slots for 5. -/
theorem two_states_for_one_fd :
    (EpolloutDemo.handle_client_read env_block demo5 5
        [ReadOutcome.bytes (lit "large\n"), ReadOutcome.bytes (lit "large\n")]).write_states.map
        (fun st => (st.fd, st.total_size, st.sent_bytes)) =
      [(5, EpolloutDemo.LARGE_DATA_SIZE, 0), (5, EpolloutDemo.LARGE_DATA_SIZE, 0)] ∧
    states_for (EpolloutDemo.handle_client_read env_block demo5 5
        [ReadOutcome.bytes (lit "large\n"), ReadOutcome.bytes (lit "large\n")]).write_states 5
      = 2 := by
  decide

/-- C9 (failing input): client 5 sends "large" while the transport is full, so the whole
payload is buffered, and then sends a second request. A second "large" of which the
transport takes 3 bytes puts those 3 bytes on the wire ahead of every buffered byte and
stores the rest in a slot of its own. A request "hi" has its reply "Echo: hi" written
straight to the transport, again ahead of every buffered byte, and when the transport
takes only 3 bytes of it the rest is in no buffer at all. The pending state is never
extended. -/
theorem new_response_bypasses_pending_state :
    ((EpolloutDemo.handle_client_read env_overtake demo5 5
        [ReadOutcome.bytes (lit "large\n"), ReadOutcome.bytes (lit "large\n")]).kernel.delivered 5
        = lit "ABC" ∧
      (EpolloutDemo.handle_client_read env_overtake demo5 5
        [ReadOutcome.bytes (lit "large\n"), ReadOutcome.bytes (lit "large\n")]).write_states.map
          (fun st => (st.fd, st.total_size, st.sent_bytes))
        = [(5, EpolloutDemo.LARGE_DATA_SIZE, 0), (5, EpolloutDemo.LARGE_DATA_SIZE - 3, 0)]) ∧
      ((EpolloutDemo.handle_client_read env_block_then_9 demo5 5
        [ReadOutcome.bytes (lit "large\n"), ReadOutcome.bytes (lit "hi\n")]).kernel.delivered 5
        = lit "Echo: hi\n" ∧
      (EpolloutDemo.handle_client_read env_block_then_9 demo5 5
        [ReadOutcome.bytes (lit "large\n"), ReadOutcome.bytes (lit "hi\n")]).write_states.map
          (fun st => (st.fd, st.total_size, st.sent_bytes))
        = [(5, EpolloutDemo.LARGE_DATA_SIZE, 0)]) ∧
      ((EpolloutDemo.handle_client_read env_block_then_3 demo5 5
        [ReadOutcome.bytes (lit "large\n"), ReadOutcome.bytes (lit "hi\n")]).kernel.delivered 5
        = lit "Ech" ∧
      (EpolloutDemo.handle_client_read env_block_then_3 demo5 5
        [ReadOutcome.bytes (lit "large\n"), ReadOutcome.bytes (lit "hi\n")]).write_states.map
          (fun st => (st.fd, st.total_size, st.sent_bytes))
        = [(5, EpolloutDemo.LARGE_DATA_SIZE, 0)]) := by
  decide

/-- C11 (as amended): for an event on a client descriptor whose mask has `EPOLLIN` and
`EPOLLOUT` and none of `EPOLLERR`, `EPOLLHUP`, `EPOLLRDHUP`, the loop of `epollout_demo`
runs `handle_client_read` and then `handle_client_write` for that event; the loop of
`epoll_server` runs `handle_client_message` and nothing else, as its `EPOLLOUT` branch is
an alternative of the `EPOLLIN` branch and the server has no drain path. -/
theorem readable_writable_event (env : Env) (s : EpolloutDemo.Server)
    (t : EpollServer.Server) (fd : Int) (mask : Nat) (reads : List ReadOutcome)
    (hs : fd ≠ s.listen_fd) (ht : fd ≠ t.listen_fd)
    (hin : has_flag mask EPOLLIN = true) (hout : has_flag mask EPOLLOUT = true)
    (herr : has_flag mask EPOLLERR = false) (hhup : has_flag mask EPOLLHUP = false)
    (hrdhup : has_flag mask EPOLLRDHUP = false) :
    EpolloutDemo.process_event env s ⟨fd, mask, reads⟩ =
        (EpolloutDemo.handle_client_write env
            (EpolloutDemo.handle_client_read env s fd reads) fd,
          [EpolloutDemo.Call.client_read fd, EpolloutDemo.Call.client_write fd]) ∧
      EpollServer.process_event env t ⟨fd, mask, reads⟩ =
        (EpollServer.handle_client_message env t fd reads,
          [EpollServer.Call.client_message fd]) := by
  have h : has_flag mask (EPOLLHUP ||| EPOLLERR ||| EPOLLRDHUP) = false := by
    simp only [has_flag_or, herr, hhup, hrdhup, Bool.or_self]
  constructor
  · simp [EpolloutDemo.process_event, hs, h, hin, hout]
  · simp [EpollServer.process_event, ht, h, hin]

/-- C11 at an event for client 5 with `EPOLLIN` and `EPOLLOUT`. -/
theorem readable_writable_event_witness :
    EpolloutDemo.process_event env_block demo5_pending
          ⟨5, EPOLLIN ||| EPOLLOUT, [ReadOutcome.bytes (lit "hi\n")]⟩ =
        (EpolloutDemo.handle_client_write env_block
            (EpolloutDemo.handle_client_read env_block demo5_pending 5
              [ReadOutcome.bytes (lit "hi\n")]) 5,
          [EpolloutDemo.Call.client_read 5, EpolloutDemo.Call.client_write 5]) ∧
      EpollServer.process_event env_block server5
          ⟨5, EPOLLIN ||| EPOLLOUT, [ReadOutcome.bytes (lit "hi\n")]⟩ =
        (EpollServer.handle_client_message env_block server5 5
            [ReadOutcome.bytes (lit "hi\n")],
          [EpollServer.Call.client_message 5]) :=
  readable_writable_event env_block demo5_pending server5 5 (EPOLLIN ||| EPOLLOUT)
    [ReadOutcome.bytes (lit "hi\n")] (by decide) (by decide) (by decide) (by decide)
    (by decide) (by decide) (by decide)

/-- C11 (counterexample): `epoll_server` gets an event for client 5 with `EPOLLIN` and
`EPOLLOUT`. The only call of the loop is the read handler and the state after the event
is the state the read handler leaves; nothing is run for `EPOLLOUT`. -/
theorem server_skips_writable :
    (EpollServer.process_event env_accept server5
        ⟨5, EPOLLIN ||| EPOLLOUT, [ReadOutcome.bytes (lit "ping\n")]⟩).2 =
        [EpollServer.Call.client_message 5] ∧
      (EpollServer.process_event env_accept server5
        ⟨5, EPOLLIN ||| EPOLLOUT, [ReadOutcome.bytes (lit "ping\n")]⟩).1 =
        EpollServer.handle_client_message env_accept server5 5
          [ReadOutcome.bytes (lit "ping\n")] ∧
      (EpollServer.process_event env_accept server5
        ⟨5, EPOLLIN ||| EPOLLOUT, [ReadOutcome.bytes (lit "ping\n")]⟩).1.kernel.writes = 1 := by
  decide

/-- C13 (as amended): for a registered connection without write state, while the
registry has a free slot and the payload was allocated, if the immediate `write` of the
large payload accepts `n < LARGE_DATA_SIZE` bytes (or would block, `n = 0`), then
`find_write_state` afterwards returns a state with `total_size = LARGE_DATA_SIZE - n`,
`sent_bytes = 0` and the last `LARGE_DATA_SIZE - n` bytes of the payload as data, and the
registered mask is `EPOLLIN | EPOLLOUT | EPOLLRDHUP | EPOLLET`. -/
theorem remainder_staged (env : Env) (s : EpolloutDemo.Server) (fd : Int) (bs : List Nat)
    (n : Nat) (hopen : fd ∈ s.kernel.open_fds) (hbs : bs ≠ [])
    (hlarge : strip_newline (bs.take (EpolloutDemo.BUFFER_SIZE - 1)) = lit "large")
    (hidle : EpolloutDemo.find_write_state s.write_states fd = none)
    (hcap : s.write_states.length < EpolloutDemo.MAX_EVENTS)
    (hreg : s.kernel.interest fd ≠ none)
    (hmalloc : env.malloc s.kernel.mallocs = true)
    (hn : n < EpolloutDemo.LARGE_DATA_SIZE)
    (hresp : env.write s.kernel.writes = WriteResp.accepted n ∨
      (env.write s.kernel.writes = WriteResp.wouldBlock ∧ n = 0)) :
    EpolloutDemo.find_write_state
        (EpolloutDemo.handle_client_read env s fd [ReadOutcome.bytes bs]).write_states fd =
        some s.write_states.length ∧
      (EpolloutDemo.handle_client_read env s fd
          [ReadOutcome.bytes bs]).write_states[s.write_states.length]? =
        some { data := EpolloutDemo.large_data.drop n,
               total_size := EpolloutDemo.LARGE_DATA_SIZE - n, sent_bytes := 0, fd := fd } ∧
      (EpolloutDemo.handle_client_read env s fd [ReadOutcome.bytes bs]).kernel.interest fd =
        some (EPOLLIN ||| EPOLLOUT ||| EPOLLRDHUP ||| EPOLLET) ∧
      has_flag (EPOLLIN ||| EPOLLOUT ||| EPOLLRDHUP ||| EPOLLET) EPOLLOUT = true := by
  have hopen0 : fd ∈ ({ s.kernel with mallocs := s.kernel.mallocs + 1 } : Kernel).open_fds :=
    hopen
  have hmask : ∀ k1 : Kernel, k1.epoll = s.kernel.epoll →
      (epoll_ctl_mod k1 fd (EPOLLIN ||| EPOLLOUT ||| EPOLLRDHUP ||| EPOLLET)).1.interest fd =
        some (EPOLLIN ||| EPOLLOUT ||| EPOLLRDHUP ||| EPOLLET) := by
    intro k1 hk
    have h1 : k1.interest fd = s.kernel.interest fd := by
      rw [interest_eq, interest_eq, hk]
    rw [interest_epoll_ctl_mod, if_pos rfl, h1]
    cases h : s.kernel.interest fd with
    | none => exact absurd h hreg
    | some m => rfl
  have hdrop : (EpolloutDemo.large_data.drop n).take (EpolloutDemo.LARGE_DATA_SIZE - n) =
      EpolloutDemo.large_data.drop n := by
    rw [List.take_of_length_le]
    simp [EpolloutDemo.large_data_length]
  rw [EpolloutDemo.read_step env s fd bs [] hopen hbs, if_pos hlarge, hmalloc, if_pos rfl]
  rcases hresp with hacc | ⟨hwb, h0⟩
  · rw [sys_write_accepted env _ fd _ _ n hopen0 hacc]
    dsimp only
    rw [if_pos hn, EpolloutDemo.handle_client_read,
      EpolloutDemo.add_write_state_eq _ _ _ _ _ _ hcap]
    obtain ⟨h1, h2, _⟩ := EpolloutDemo.appended_state s.write_states
      { fd := fd, data := (EpolloutDemo.large_data.drop n).take (EpolloutDemo.LARGE_DATA_SIZE - n),
        total_size := EpolloutDemo.LARGE_DATA_SIZE - n, sent_bytes := 0 } fd rfl hidle
    rw [hdrop] at h1 h2
    exact ⟨by rw [hdrop]; exact h1, by rw [hdrop]; exact h2, hmask _ rfl, by decide⟩
  · subst h0
    rw [sys_write_would_block env _ fd _ _ hopen0 hwb]
    dsimp only
    rw [EpolloutDemo.handle_client_read, EpolloutDemo.add_write_state_eq _ _ _ _ _ _ hcap]
    obtain ⟨h1, h2, _⟩ := EpolloutDemo.appended_state s.write_states
      { fd := fd, data := EpolloutDemo.large_data.take EpolloutDemo.LARGE_DATA_SIZE,
        total_size := EpolloutDemo.LARGE_DATA_SIZE, sent_bytes := 0 } fd rfl hidle
    rw [EpolloutDemo.large_data_take] at h1 h2
    refine ⟨by rw [EpolloutDemo.large_data_take]; exact h1, ?_, hmask _ rfl, by decide⟩
    rw [EpolloutDemo.large_data_take]
    exact h2

/-- C13 at `demo5` with a transport that takes 4 bytes of the payload. -/
theorem remainder_staged_witness :
    EpolloutDemo.find_write_state
        (EpolloutDemo.handle_client_read env_trickle demo5 5
          [ReadOutcome.bytes (lit "large\n")]).write_states 5 = some 0 ∧
      (EpolloutDemo.handle_client_read env_trickle demo5 5
          [ReadOutcome.bytes (lit "large\n")]).write_states[0]? =
        some { data := EpolloutDemo.large_data.drop 4,
               total_size := EpolloutDemo.LARGE_DATA_SIZE - 4, sent_bytes := 0, fd := 5 } ∧
      (EpolloutDemo.handle_client_read env_trickle demo5 5
          [ReadOutcome.bytes (lit "large\n")]).kernel.interest 5 =
        some (EPOLLIN ||| EPOLLOUT ||| EPOLLRDHUP ||| EPOLLET) ∧
      has_flag (EPOLLIN ||| EPOLLOUT ||| EPOLLRDHUP ||| EPOLLET) EPOLLOUT = true :=
  remainder_staged env_trickle demo5 5 (lit "large\n") 4 (by decide) (by decide) (by decide)
    (by decide) (by decide) (by decide) rfl (by decide) (Or.inl rfl)

/-- C13 (counterexample): client 5 is registered and has no write state, the registry is
full with the states of 100 other clients, and the `write` of the payload would block.
Afterwards `find_write_state` returns nothing for 5 and the mask of 5 is still without
`EPOLLOUT`. -/
theorem remainder_dropped_when_registry_full :
    EpolloutDemo.find_write_state demo_full.write_states 5 = none ∧
      demo_full.kernel.interest 5 = some (EPOLLIN ||| EPOLLRDHUP ||| EPOLLET) ∧
      demo_full.write_states.length = EpolloutDemo.MAX_EVENTS ∧
      EpolloutDemo.find_write_state
        (EpolloutDemo.handle_client_read env_block demo_full 5
          [ReadOutcome.bytes (lit "large\n")]).write_states 5 = none ∧
      (EpolloutDemo.handle_client_read env_block demo_full 5
          [ReadOutcome.bytes (lit "large\n")]).kernel.interest 5 =
        some (EPOLLIN ||| EPOLLRDHUP ||| EPOLLET) ∧
      has_flag (EPOLLIN ||| EPOLLRDHUP ||| EPOLLET) EPOLLOUT = false := by
  decide

/-- C14: for a pending write state that `find_write_state` returns for its descriptor,
if the `write` inside `continue_writing` fails with an error other than would-block or
returns 0, `continue_writing` returns -1 with the state unchanged and
`handle_client_write` runs the teardown: that state leaves the registry, the
descriptor is unregistered from epoll and closed. -/
theorem write_fault_disconnects (env : Env) (s : EpolloutDemo.Server)
    (st : EpolloutDemo.client_write_state) (i : Nat)
    (hfind : EpolloutDemo.find_write_state s.write_states st.fd = some i)
    (hget : s.write_states[i]? = some st) (hpend : st.sent_bytes < st.total_size)
    (hres : (sys_write env s.kernel st.fd (st.data.drop st.sent_bytes)
        (st.total_size - st.sent_bytes)).2 = WriteResp.fault ∨
      (sys_write env s.kernel st.fd (st.data.drop st.sent_bytes)
        (st.total_size - st.sent_bytes)).2 = WriteResp.accepted 0) :
    (EpolloutDemo.continue_writing env s.kernel st).2 = (st, -1) ∧
      EpolloutDemo.handle_client_write env s st.fd =
        EpolloutDemo.disconnect
          { s with kernel := (EpolloutDemo.continue_writing env s.kernel st).1 } st.fd ∧
      List.Perm s.write_states
        (st :: (EpolloutDemo.handle_client_write env s st.fd).write_states) ∧
      (EpolloutDemo.handle_client_write env s st.fd).kernel.interest st.fd = none ∧
      st.fd ∉ (EpolloutDemo.handle_client_write env s st.fd).kernel.open_fds := by
  have hcw : (EpolloutDemo.continue_writing env s.kernel st).2 = (st, -1) := by
    rw [EpolloutDemo.continue_writing_eq]
    simp only [hpend, if_true]
    rcases hsw : sys_write env s.kernel st.fd (st.data.drop st.sent_bytes)
      (st.total_size - st.sent_bytes) with ⟨k1, r⟩
    rw [hsw] at hres
    rcases hres with h | h
    · simp only at h
      subst h
      rfl
    · simp only at h
      subst h
      rfl
  have hhw : EpolloutDemo.handle_client_write env s st.fd =
      EpolloutDemo.disconnect
        { s with kernel := (EpolloutDemo.continue_writing env s.kernel st).1 } st.fd := by
    unfold EpolloutDemo.handle_client_write
    simp only [hfind, hget]
    rcases hc : EpolloutDemo.continue_writing env s.kernel st with ⟨k1, st1, res⟩
    rw [hc] at hcw
    simp only [Prod.mk.injEq] at hcw
    obtain ⟨h1, h2⟩ := hcw
    subst h1 h2
    simp [EpolloutDemo.set_same _ _ _ hget]
  refine ⟨hcw, hhw, ?_, ?_, ?_⟩
  · rw [hhw]
    exact EpolloutDemo.remove_write_state_perm _ _ i st hfind hget
  · rw [hhw]
    show (sys_close (epoll_ctl_del _ st.fd).1 st.fd).interest st.fd = none
    rw [interest_sys_close]
    simp
  · rw [hhw]
    simp [EpolloutDemo.disconnect, sys_close]

/-- C14 at `demo5_pending` with a transport whose every `write` fails. -/
theorem write_fault_disconnects_witness :
    (EpolloutDemo.continue_writing env_fault demo5_pending.kernel state5).2 = (state5, -1) ∧
      List.Perm demo5_pending.write_states
        (state5 :: (EpolloutDemo.handle_client_write env_fault demo5_pending 5).write_states) ∧
      (EpolloutDemo.handle_client_write env_fault demo5_pending 5).kernel.interest 5 = none ∧
      (5 : Int) ∉ (EpolloutDemo.handle_client_write env_fault demo5_pending 5).kernel.open_fds :=
  ⟨(write_fault_disconnects env_fault demo5_pending state5 0 rfl rfl (by decide)
      (Or.inl (by decide))).1,
    (write_fault_disconnects env_fault demo5_pending state5 0 rfl rfl (by decide)
      (Or.inl (by decide))).2.2.1,
    (write_fault_disconnects env_fault demo5_pending state5 0 rfl rfl (by decide)
      (Or.inl (by decide))).2.2.2.1,
    (write_fault_disconnects env_fault demo5_pending state5 0 rfl rfl (by decide)
      (Or.inl (by decide))).2.2.2.2⟩

/-- C15 (as amended): when the response `write` of the read path fails with an error
other than would-block, `handle_client_message` of `epoll_server` disconnects that
descriptor and leaves every other registration and open descriptor as it was;
`handle_client_read` of `epollout_demo` does not disconnect: after a chunk whose
response `write` fails, every write state, every epoll registration and every open
descriptor is as before. -/
theorem read_path_write_fault (env : Env) (s : EpolloutDemo.Server) (t : EpollServer.Server)
    (fd : Int) (bs : List Nat) (rest : List ReadOutcome)
    (hs : fd ∈ s.kernel.open_fds) (ht : fd ∈ t.kernel.open_fds) (hbs : bs ≠ [])
    (hsf : env.write s.kernel.writes = WriteResp.fault)
    (htf : env.write t.kernel.writes = WriteResp.fault)
    (hmalloc : env.malloc s.kernel.mallocs = true) :
    (EpollServer.handle_client_message env t fd (ReadOutcome.bytes bs :: rest) =
        EpollServer.handle_client_disconnect
          { t with kernel := { t.kernel with writes := t.kernel.writes + 1 } } fd ∧
      (EpollServer.handle_client_message env t fd
        (ReadOutcome.bytes bs :: rest)).kernel.interest fd = none ∧
      fd ∉ (EpollServer.handle_client_message env t fd
        (ReadOutcome.bytes bs :: rest)).kernel.open_fds ∧
      ∀ g, g ≠ fd →
        (EpollServer.handle_client_message env t fd
          (ReadOutcome.bytes bs :: rest)).kernel.interest g = t.kernel.interest g ∧
        (g ∈ (EpollServer.handle_client_message env t fd
          (ReadOutcome.bytes bs :: rest)).kernel.open_fds ↔ g ∈ t.kernel.open_fds)) ∧
      ((EpolloutDemo.handle_client_read env s fd [ReadOutcome.bytes bs]).write_states =
          s.write_states ∧
        (EpolloutDemo.handle_client_read env s fd [ReadOutcome.bytes bs]).kernel.epoll =
          s.kernel.epoll ∧
        (EpolloutDemo.handle_client_read env s fd [ReadOutcome.bytes bs]).kernel.open_fds =
          s.kernel.open_fds) := by
  constructor
  · have h : EpollServer.handle_client_message env t fd (ReadOutcome.bytes bs :: rest) =
        EpollServer.handle_client_disconnect
          { t with kernel := { t.kernel with writes := t.kernel.writes + 1 } } fd := by
      rw [EpollServer.message_step env t fd bs rest ht hbs, sys_write_fault env _ _ _ _ htf]
    rw [h]
    refine ⟨rfl, ?_, ?_, ?_⟩
    · show (sys_close (epoll_ctl_del _ fd).1 fd).interest fd = none
      rw [interest_sys_close, if_pos rfl]
    · simp [EpollServer.handle_client_disconnect, sys_close]
    · intro g hg
      constructor
      · show (sys_close (epoll_ctl_del _ fd).1 fd).interest g = _
        rw [interest_sys_close, if_neg hg, interest_epoll_ctl_del, if_neg hg]
        rfl
      · simp only [EpollServer.handle_client_disconnect, sys_close, List.mem_filter,
          bne_iff_ne, ne_eq]
        constructor
        · intro h'
          have := h'.1
          unfold epoll_ctl_del at this
          split at this <;> exact this
        · intro h'
          refine ⟨?_, hg⟩
          unfold epoll_ctl_del
          split <;> exact h'
  · rw [EpolloutDemo.read_step env s fd bs [] hs hbs]
    by_cases hl : strip_newline (bs.take (EpolloutDemo.BUFFER_SIZE - 1)) = lit "large"
    · rw [if_pos hl, hmalloc, if_pos rfl,
        sys_write_fault env { s.kernel with mallocs := s.kernel.mallocs + 1 } _ _ _ hsf]
      dsimp only
      rw [EpolloutDemo.handle_client_read]
      exact ⟨rfl, rfl, rfl⟩
    · rw [if_neg hl, EpolloutDemo.handle_client_read]
      exact ⟨rfl, sys_write_epoll _ _ _ _ _, sys_write_open_fds _ _ _ _ _⟩

/-- C15 at client 5 with a transport whose every `write` fails. -/
theorem read_path_write_fault_witness :
    (5 : Int) ∉ (EpollServer.handle_client_message env_fault server5 5
        [ReadOutcome.bytes (lit "ping\n")]).kernel.open_fds ∧
      (EpolloutDemo.handle_client_read env_fault demo5 5
        [ReadOutcome.bytes (lit "ping\n")]).kernel.open_fds = demo5.kernel.open_fds :=
  ⟨(read_path_write_fault env_fault demo5 server5 5 (lit "ping\n") [] (by decide) (by decide)
      (by decide) rfl rfl rfl).1.2.2.1,
    (read_path_write_fault env_fault demo5 server5 5 (lit "ping\n") [] (by decide) (by decide)
      (by decide) rfl rfl rfl).2.2.2⟩

/-- C15 (counterexample): in `epollout_demo` the `write` of the large payload, and in a
second run the `write` of an echo reply, fails with an error other than would-block.
Descriptor 5 is still open and registered afterwards. -/
theorem read_path_fault_keeps_connection :
    ((5 : Int) ∈ (EpolloutDemo.handle_client_read env_fault demo5 5
          [ReadOutcome.bytes (lit "large\n")]).kernel.open_fds ∧
        (EpolloutDemo.handle_client_read env_fault demo5 5
          [ReadOutcome.bytes (lit "large\n")]).kernel.interest 5 =
          some (EPOLLIN ||| EPOLLRDHUP ||| EPOLLET)) ∧
      ((5 : Int) ∈ (EpolloutDemo.handle_client_read env_fault demo5 5
          [ReadOutcome.bytes (lit "hi\n")]).kernel.open_fds ∧
        (EpolloutDemo.handle_client_read env_fault demo5 5
          [ReadOutcome.bytes (lit "hi\n")]).kernel.interest 5 =
          some (EPOLLIN ||| EPOLLRDHUP ||| EPOLLET)) := by
  decide

/-- C16 (as amended): when staging the large payload fails for lack of resources, the
send is abandoned and the connection is not disconnected. If `malloc` returns `NULL`,
`handle_client_read` writes "Memory allocation failed" and returns; if the registry
is full, `add_write_state` returns without storing the remainder. In both cases every
write state, every epoll registration and every open descriptor is as before. -/
theorem staging_failure_keeps_connection (env : Env) (s : EpolloutDemo.Server) (fd : Int)
    (bs : List Nat) (rest : List ReadOutcome) (hopen : fd ∈ s.kernel.open_fds)
    (hbs : bs ≠ [])
    (hlarge : strip_newline (bs.take (EpolloutDemo.BUFFER_SIZE - 1)) = lit "large") :
    (env.malloc s.kernel.mallocs = false →
        EpolloutDemo.handle_client_read env s fd (ReadOutcome.bytes bs :: rest) =
          { s with
            kernel := (sys_write env { s.kernel with mallocs := s.kernel.mallocs + 1 } fd
              (lit "Memory allocation failed\n")
              (lit "Memory allocation failed\n").length).1 } ∧
        (EpolloutDemo.handle_client_read env s fd (ReadOutcome.bytes bs :: rest)).kernel.epoll =
          s.kernel.epoll ∧
        (EpolloutDemo.handle_client_read env s fd
          (ReadOutcome.bytes bs :: rest)).kernel.open_fds = s.kernel.open_fds) ∧
      (env.malloc s.kernel.mallocs = true →
        EpolloutDemo.MAX_EVENTS ≤ s.write_states.length →
        (EpolloutDemo.handle_client_read env s fd [ReadOutcome.bytes bs]).write_states =
          s.write_states ∧
        (EpolloutDemo.handle_client_read env s fd [ReadOutcome.bytes bs]).kernel.epoll =
          s.kernel.epoll ∧
        (EpolloutDemo.handle_client_read env s fd [ReadOutcome.bytes bs]).kernel.open_fds =
          s.kernel.open_fds) := by
  constructor
  · intro hm
    have h : EpolloutDemo.handle_client_read env s fd (ReadOutcome.bytes bs :: rest) =
        { s with
          kernel := (sys_write env { s.kernel with mallocs := s.kernel.mallocs + 1 } fd
            (lit "Memory allocation failed\n")
            (lit "Memory allocation failed\n").length).1 } := by
      rw [EpolloutDemo.read_step env s fd bs rest hopen hbs, if_pos hlarge, hm]
      rfl
    rw [h]
    exact ⟨rfl, sys_write_epoll _ _ _ _ _, sys_write_open_fds _ _ _ _ _⟩
  · intro hm hfull
    have hadd : ∀ (k1 : Kernel) (data : List Nat) (size : Nat),
        EpolloutDemo.add_write_state { s with kernel := k1 } fd data size =
          { s with kernel := k1 } := by
      intro k1 data size
      unfold EpolloutDemo.add_write_state
      rw [if_pos hfull]
    rw [EpolloutDemo.read_step env s fd bs [] hopen hbs, if_pos hlarge, hm, if_pos rfl]
    have he := sys_write_epoll env { s.kernel with mallocs := s.kernel.mallocs + 1 } fd
      EpolloutDemo.large_data EpolloutDemo.LARGE_DATA_SIZE
    have ho := sys_write_open_fds env { s.kernel with mallocs := s.kernel.mallocs + 1 } fd
      EpolloutDemo.large_data EpolloutDemo.LARGE_DATA_SIZE
    rcases hsw : sys_write env { s.kernel with mallocs := s.kernel.mallocs + 1 } fd
      EpolloutDemo.large_data EpolloutDemo.LARGE_DATA_SIZE with ⟨k1, r⟩
    rw [hsw] at he ho
    cases r with
    | wouldBlock =>
      dsimp only
      rw [hadd, EpolloutDemo.handle_client_read]
      exact ⟨rfl, he, ho⟩
    | fault =>
      dsimp only
      rw [EpolloutDemo.handle_client_read]
      exact ⟨rfl, he, ho⟩
    | accepted n =>
      dsimp only
      split
      · rw [hadd, EpolloutDemo.handle_client_read]
        exact ⟨rfl, he, ho⟩
      · rw [EpolloutDemo.handle_client_read]
        exact ⟨rfl, he, ho⟩

/-- C16 at client 5: once with `malloc` failing, once with the registry full and the
transport full. -/
theorem staging_failure_keeps_connection_witness :
    ((EpolloutDemo.handle_client_read env_no_memory demo5 5
          [ReadOutcome.bytes (lit "large\n")]).kernel.epoll = demo5.kernel.epoll ∧
        (EpolloutDemo.handle_client_read env_no_memory demo5 5
          [ReadOutcome.bytes (lit "large\n")]).kernel.open_fds = demo5.kernel.open_fds) ∧
      ((EpolloutDemo.handle_client_read env_block demo_full 5
          [ReadOutcome.bytes (lit "large\n")]).write_states = demo_full.write_states ∧
        (EpolloutDemo.handle_client_read env_block demo_full 5
          [ReadOutcome.bytes (lit "large\n")]).kernel.epoll = demo_full.kernel.epoll ∧
        (EpolloutDemo.handle_client_read env_block demo_full 5
          [ReadOutcome.bytes (lit "large\n")]).kernel.open_fds = demo_full.kernel.open_fds) :=
  ⟨((staging_failure_keeps_connection env_no_memory demo5 5 (lit "large\n") []
      (by decide) (by decide) (by decide)).1 rfl).2,
    (staging_failure_keeps_connection env_block demo_full 5 (lit "large\n") []
      (by decide) (by decide) (by decide)).2 rfl (by decide)⟩

/-- C16 (counterexample): client 5 asks for the large payload when `malloc` fails, and,
in a second run, when the registry and the transport are full. In both runs descriptor
5 is still open and registered afterwards: the connection is not disconnected. -/
theorem staging_failure_does_not_disconnect :
    ((EpolloutDemo.handle_client_read env_no_memory demo5 5
          [ReadOutcome.bytes (lit "large\n")]).kernel.delivered 5 =
          lit "Memory allocation failed\n" ∧
        (5 : Int) ∈ (EpolloutDemo.handle_client_read env_no_memory demo5 5
          [ReadOutcome.bytes (lit "large\n")]).kernel.open_fds ∧
        (EpolloutDemo.handle_client_read env_no_memory demo5 5
          [ReadOutcome.bytes (lit "large\n")]).kernel.interest 5 =
          some (EPOLLIN ||| EPOLLRDHUP ||| EPOLLET)) ∧
      ((EpolloutDemo.handle_client_read env_block demo_full 5
          [ReadOutcome.bytes (lit "large\n")]).kernel.delivered 5 = [] ∧
        EpolloutDemo.find_write_state
          (EpolloutDemo.handle_client_read env_block demo_full 5
            [ReadOutcome.bytes (lit "large\n")]).write_states 5 = none ∧
        (5 : Int) ∈ (EpolloutDemo.handle_client_read env_block demo_full 5
          [ReadOutcome.bytes (lit "large\n")]).kernel.open_fds ∧
        (EpolloutDemo.handle_client_read env_block demo_full 5
          [ReadOutcome.bytes (lit "large\n")]).kernel.interest 5 =
          some (EPOLLIN ||| EPOLLRDHUP ||| EPOLLET)) := by
  decide

/-- C17 (as amended): for every chunk of bytes one `read` returns, `handle_client_message`
calls `process_message` once, on the whole chunk up to its first NUL with one final
newline removed, and issues one `write` with that response; the chunk is not split into
lines. -/
theorem one_request_per_chunk (env : Env) (t : EpollServer.Server) (fd : Int)
    (bs : List Nat) (n : Nat) (hopen : fd ∈ t.kernel.open_fds) (hbs : bs ≠ [])
    (hresp : env.write t.kernel.writes = WriteResp.accepted n) :
    (EpollServer.handle_client_message env t fd [ReadOutcome.bytes bs]).kernel.writes =
        t.kernel.writes + 1 ∧
      (EpollServer.handle_client_message env t fd [ReadOutcome.bytes bs]).kernel.delivered fd =
        t.kernel.delivered fd ++
          (EpollServer.process_message (env.localtime t.kernel.writes)
            (strip_newline (bs.take (EpollServer.BUFFER_SIZE - 1)))
            EpollServer.BUFFER_SIZE).take n := by
  rw [EpollServer.message_step env t fd bs [] hopen hbs,
    sys_write_accepted env t.kernel fd _ _ n hopen hresp]
  refine ⟨rfl, ?_⟩
  show Kernel.delivered _ fd = _
  rw [delivered_wire t.kernel _ fd _ rfl, List.take_length]

/-- C17 at the chunk "ping" for client 5. -/
theorem one_request_per_chunk_witness :
    (EpollServer.handle_client_message env_accept server5 5
        [ReadOutcome.bytes (lit "ping\n")]).kernel.writes = server5.kernel.writes + 1 ∧
      (EpollServer.handle_client_message env_accept server5 5
        [ReadOutcome.bytes (lit "ping\n")]).kernel.delivered 5 =
        server5.kernel.delivered 5 ++
          (EpollServer.process_message (env_accept.localtime server5.kernel.writes)
            (strip_newline ((lit "ping\n").take (EpollServer.BUFFER_SIZE - 1)))
            EpollServer.BUFFER_SIZE).take 4096 :=
  one_request_per_chunk env_accept server5 5 (lit "ping\n") 4096 (by decide) (by decide) rfl

/-- C17 (counterexample): one `read` returns the chunk of two lines "ping", "ping". The
server makes one `write`, of the reply to the single request "ping\nping", where two
requests "ping" would be answered "pong", "pong". -/
theorem chunk_not_split_into_lines :
    (EpollServer.handle_client_message env_accept server5 5
        [ReadOutcome.bytes (lit "ping\nping\n")]).kernel.writes = 1 ∧
      (EpollServer.handle_client_message env_accept server5 5
        [ReadOutcome.bytes (lit "ping\nping\n")]).kernel.delivered 5 =
        lit "Echo: ping\nping\n" ∧
      (EpollServer.handle_client_message env_accept server5 5
        [ReadOutcome.bytes (lit "ping\n"), ReadOutcome.bytes (lit "ping\n")]).kernel.delivered 5
        = lit "pong\npong\n" := by
  decide

/-- C18 (failing input): the request is 4095 bytes `a`, which `handle_client_message`
passes when a `read` fills the buffer. `snprintf` cuts "Echo: " followed by the request
and a newline after 4095 bytes, so the response ends in `a`, not in a newline. -/
theorem long_request_loses_newline :
    strip_newline ((List.replicate 4095 97).take (EpollServer.BUFFER_SIZE - 1)) =
        List.replicate 4095 97 ∧
      EpollServer.process_message ⟨124, 0, 1, 0, 0, 0⟩ (List.replicate 4095 97)
        EpollServer.BUFFER_SIZE = lit "Echo: " ++ List.replicate 4089 97 ∧
      (EpollServer.process_message ⟨124, 0, 1, 0, 0, 0⟩ (List.replicate 4095 97)
        EpollServer.BUFFER_SIZE).length = 4095 ∧
      (EpollServer.process_message ⟨124, 0, 1, 0, 0, 0⟩ (List.replicate 4095 97)
        EpollServer.BUFFER_SIZE).getLast? = some 97 := by
  have hp := EpollServer.process_message_full_buffer ⟨124, 0, 1, 0, 0, 0⟩
    (List.replicate 4095 97) (List.length_replicate _ _) (by decide)
  have ht : (List.replicate 4095 97).take 4089 = List.replicate 4089 97 := by
    rw [List.take_replicate, Nat.min_eq_left (by omega)]
  rw [ht] at hp
  refine ⟨?_, hp, ?_, ?_⟩
  · have hlast : (List.replicate 4095 97).getLast? = some 97 := by
      rw [show (4095 : Nat) = 4094 + 1 from rfl, List.replicate_succ']
      exact List.getLast?_concat _
    have htk : (List.replicate 4095 97).take (EpollServer.BUFFER_SIZE - 1) =
        List.replicate 4095 97 := by
      rw [List.take_replicate, Nat.min_eq_right (by decide)]
    rw [htk]
    unfold strip_newline
    rw [hlast, if_neg (by decide)]
    unfold cstr
    rw [List.takeWhile_eq_self_iff]
    intro x hx
    rw [List.eq_of_mem_replicate hx]
    rfl
  · rw [hp]
    simp only [List.length_append, List.length_replicate]
    rfl
  · rw [hp, show (4089 : Nat) = 4088 + 1 from rfl, List.replicate_succ', ← List.append_assoc]
    exact List.getLast?_concat _

set_option maxRecDepth 8000 in
/-- C19 (failing input): client 5 of `epoll_server` sends "quit" and, in a second run,
"exit". The server answers "Goodbye!" and leaves descriptor 5 open and registered,
although its help text announces `quit/exit - disconnect`. -/
theorem quit_does_not_disconnect :
    ((EpollServer.handle_client_message env_accept server5 5
        [ReadOutcome.bytes (lit "quit\n")]).kernel.delivered 5 = lit "Goodbye!\n" ∧
      (5 : Int) ∈ (EpollServer.handle_client_message env_accept server5 5
        [ReadOutcome.bytes (lit "quit\n")]).kernel.open_fds ∧
      (EpollServer.handle_client_message env_accept server5 5
        [ReadOutcome.bytes (lit "quit\n")]).kernel.interest 5 =
        some (EPOLLIN ||| EPOLLRDHUP ||| EPOLLET)) ∧
      ((EpollServer.handle_client_message env_accept server5 5
        [ReadOutcome.bytes (lit "exit\n")]).kernel.delivered 5 = lit "Goodbye!\n" ∧
      (5 : Int) ∈ (EpollServer.handle_client_message env_accept server5 5
        [ReadOutcome.bytes (lit "exit\n")]).kernel.open_fds ∧
      (EpollServer.handle_client_message env_accept server5 5
        [ReadOutcome.bytes (lit "exit\n")]).kernel.interest 5 =
        some (EPOLLIN ||| EPOLLRDHUP ||| EPOLLET)) ∧
      List.isSuffixOf (lit "  quit/exit - disconnect\n")
        ((EpollServer.handle_client_message env_accept server5 5
          [ReadOutcome.bytes (lit "help\n")]).kernel.delivered 5) = true := by
  decide

/-- C20: for a write state with `sent_bytes ≤ total_size` and a `write` that reports no
more bytes than were requested, the state `continue_writing` returns has
`sent_bytes ≤ total_size`, has not moved `sent_bytes` backwards and has the same
`total_size`, `data` and `fd`. The loop issues at most one `write`, so the state on
return is also the state after each iteration. -/
theorem continue_writing_keeps_bounds (env : Env) (k : Kernel)
    (st : EpolloutDemo.client_write_state) (hle : st.sent_bytes ≤ st.total_size)
    (hresp : ∀ n, (sys_write env k st.fd (st.data.drop st.sent_bytes)
        (st.total_size - st.sent_bytes)).2 = WriteResp.accepted n →
      n ≤ st.total_size - st.sent_bytes) :
    st.sent_bytes ≤ (EpolloutDemo.continue_writing env k st).2.1.sent_bytes ∧
      (EpolloutDemo.continue_writing env k st).2.1.sent_bytes ≤
        (EpolloutDemo.continue_writing env k st).2.1.total_size ∧
      (EpolloutDemo.continue_writing env k st).2.1.total_size = st.total_size ∧
      (EpolloutDemo.continue_writing env k st).2.1.data = st.data ∧
      (EpolloutDemo.continue_writing env k st).2.1.fd = st.fd ∧
      (EpolloutDemo.continue_writing env k st).1.writes ≤ k.writes + 1 := by
  rw [EpolloutDemo.continue_writing_eq]
  by_cases hp : st.sent_bytes < st.total_size
  · rw [if_pos hp]
    rcases hsw : sys_write env k st.fd (st.data.drop st.sent_bytes)
      (st.total_size - st.sent_bytes) with ⟨k1, r⟩
    have hk1 : k1.writes = k.writes + 1 := by
      have := congrArg (fun p => p.1.writes) hsw
      simp only [sys_write] at this
      split at this
      · split at this <;> exact this.symm
      · exact this.symm
    rw [hsw] at hresp
    cases r with
    | wouldBlock => exact ⟨le_refl _, hle, rfl, rfl, rfl, by simp [hk1]⟩
    | fault => exact ⟨le_refl _, hle, rfl, rfl, rfl, by simp [hk1]⟩
    | accepted n =>
      have hn := hresp n rfl
      dsimp only
      by_cases h0 : n = 0
      · rw [if_pos h0]
        exact ⟨le_refl _, hle, rfl, rfl, rfl, by simp [hk1]⟩
      · rw [if_neg h0]
        by_cases hlt : n < st.total_size - st.sent_bytes
        · rw [if_pos hlt]
          refine ⟨?_, ?_, rfl, rfl, rfl, ?_⟩
          · show st.sent_bytes ≤ st.sent_bytes + n
            omega
          · show st.sent_bytes + n ≤ st.total_size
            omega
          · show k1.writes ≤ k.writes + 1
            omega
        · rw [if_neg hlt]
          refine ⟨?_, ?_, rfl, rfl, rfl, ?_⟩
          · show st.sent_bytes ≤ st.sent_bytes + n
            omega
          · show st.sent_bytes + n ≤ st.total_size
            omega
          · show k1.writes ≤ k.writes + 1
            omega
  · rw [if_neg hp]
    exact ⟨le_refl _, hle, rfl, rfl, rfl, by simp⟩

/-- C20 at `state5` with a transport that takes 3 of the 5 bytes. -/
theorem continue_writing_keeps_bounds_witness :
    state5.sent_bytes ≤ (EpolloutDemo.continue_writing env_short kernel5 state5).2.1.sent_bytes ∧
      (EpolloutDemo.continue_writing env_short kernel5 state5).2.1.sent_bytes ≤
        (EpolloutDemo.continue_writing env_short kernel5 state5).2.1.total_size ∧
      (EpolloutDemo.continue_writing env_short kernel5 state5).2.1.total_size =
        state5.total_size ∧
      (EpolloutDemo.continue_writing env_short kernel5 state5).2.1.data = state5.data ∧
      (EpolloutDemo.continue_writing env_short kernel5 state5).2.1.fd = state5.fd ∧
      (EpolloutDemo.continue_writing env_short kernel5 state5).1.writes ≤ kernel5.writes + 1 :=
  continue_writing_keeps_bounds env_short kernel5 state5 (by decide) (by
    intro n h
    have h3 : n = 3 := by
      have h' : WriteResp.accepted 3 = WriteResp.accepted n := h
      exact (WriteResp.accepted.inj h').symm
    subst h3
    decide)

/-- C21: for a write state with `sent_bytes ≤ total_size` and a `write` that reports no
more bytes than were requested, `continue_writing` returns 0 exactly when the state it
leaves has `sent_bytes = total_size`. When it returns 0 for the state that
`find_write_state` returns for the descriptor, `handle_client_write` stores the state,
calls `remove_write_state` and `epoll_ctl(EPOLL_CTL_MOD)`: the registry loses exactly
that state (no state of the descriptor is left when it had one slot), and a registered
descriptor is left with the mask `EPOLLIN | EPOLLRDHUP | EPOLLET`, which has no
`EPOLLOUT`. -/
theorem completed_write_retires_state (env : Env) (k : Kernel)
    (st : EpolloutDemo.client_write_state) (hle : st.sent_bytes ≤ st.total_size)
    (hresp : ∀ n, (sys_write env k st.fd (st.data.drop st.sent_bytes)
        (st.total_size - st.sent_bytes)).2 = WriteResp.accepted n →
      n ≤ st.total_size - st.sent_bytes) :
    ((EpolloutDemo.continue_writing env k st).2.2 = 0 ↔
        (EpolloutDemo.continue_writing env k st).2.1.sent_bytes =
          (EpolloutDemo.continue_writing env k st).2.1.total_size) ∧
      ∀ (s : EpolloutDemo.Server) (i : Nat), s.kernel = k →
        EpolloutDemo.find_write_state s.write_states st.fd = some i →
        s.write_states[i]? = some st →
        (EpolloutDemo.continue_writing env k st).2.2 = 0 →
        EpolloutDemo.handle_client_write env s st.fd =
            { s with
              write_states :=
                EpolloutDemo.remove_write_state
                  (s.write_states.set i (EpolloutDemo.continue_writing env k st).2.1) st.fd,
              kernel :=
                (epoll_ctl_mod (EpolloutDemo.continue_writing env k st).1 st.fd
                  (EPOLLIN ||| EPOLLRDHUP ||| EPOLLET)).1 } ∧
          List.Perm s.write_states
            (st :: (EpolloutDemo.handle_client_write env s st.fd).write_states) ∧
          (∀ m, s.kernel.interest st.fd = some m →
            (EpolloutDemo.handle_client_write env s st.fd).kernel.interest st.fd =
              some (EPOLLIN ||| EPOLLRDHUP ||| EPOLLET)) ∧
          has_flag (EPOLLIN ||| EPOLLRDHUP ||| EPOLLET) EPOLLOUT = false ∧
          (states_for s.write_states st.fd ≤ 1 →
            EpolloutDemo.find_write_state
              (EpolloutDemo.handle_client_write env s st.fd).write_states st.fd = none) := by
  have hfd : (EpolloutDemo.continue_writing env k st).2.1.fd = st.fd ∧
      (EpolloutDemo.continue_writing env k st).1.epoll = k.epoll ∧
      ((EpolloutDemo.continue_writing env k st).2.2 = 0 ↔
        (EpolloutDemo.continue_writing env k st).2.1.sent_bytes =
          (EpolloutDemo.continue_writing env k st).2.1.total_size) := by
    rw [EpolloutDemo.continue_writing_eq]
    by_cases hp : st.sent_bytes < st.total_size
    · rw [if_pos hp]
      have hep := sys_write_epoll env k st.fd (st.data.drop st.sent_bytes)
        (st.total_size - st.sent_bytes)
      rcases hsw : sys_write env k st.fd (st.data.drop st.sent_bytes)
        (st.total_size - st.sent_bytes) with ⟨k1, r⟩
      rw [hsw] at hresp hep
      cases r with
      | wouldBlock =>
        refine ⟨rfl, hep, ?_⟩
        show (1 : Int) = 0 ↔ st.sent_bytes = st.total_size
        constructor
        · intro h; exact absurd h (by decide)
        · intro h; omega
      | fault =>
        refine ⟨rfl, hep, ?_⟩
        show (-1 : Int) = 0 ↔ st.sent_bytes = st.total_size
        constructor
        · intro h; exact absurd h (by decide)
        · intro h; omega
      | accepted n =>
        have hn := hresp n rfl
        dsimp only
        by_cases h0 : n = 0
        · rw [if_pos h0]
          refine ⟨rfl, hep, ?_⟩
          show (-1 : Int) = 0 ↔ st.sent_bytes = st.total_size
          constructor
          · intro h; exact absurd h (by decide)
          · intro h; omega
        · rw [if_neg h0]
          by_cases hlt : n < st.total_size - st.sent_bytes
          · rw [if_pos hlt]
            refine ⟨rfl, hep, ?_⟩
            show (1 : Int) = 0 ↔ st.sent_bytes + n = st.total_size
            constructor
            · intro h; exact absurd h (by decide)
            · intro h; omega
          · rw [if_neg hlt]
            refine ⟨rfl, hep, ?_⟩
            show (0 : Int) = 0 ↔ st.sent_bytes + n = st.total_size
            constructor
            · intro _; omega
            · intro _; rfl
    · rw [if_neg hp]
      refine ⟨rfl, rfl, ?_⟩
      show (0 : Int) = 0 ↔ st.sent_bytes = st.total_size
      constructor
      · intro _; omega
      · intro _; rfl
  refine ⟨hfd.2.2, ?_⟩
  intro s i hk hfind hget hzero
  subst hk
  have hhw : EpolloutDemo.handle_client_write env s st.fd =
      { s with
        write_states :=
          EpolloutDemo.remove_write_state
            (s.write_states.set i (EpolloutDemo.continue_writing env s.kernel st).2.1) st.fd,
        kernel :=
          (epoll_ctl_mod (EpolloutDemo.continue_writing env s.kernel st).1 st.fd
            (EPOLLIN ||| EPOLLRDHUP ||| EPOLLET)).1 } := by
    unfold EpolloutDemo.handle_client_write
    simp only [hfind, hget]
    rcases hc : EpolloutDemo.continue_writing env s.kernel st with ⟨k1, st1, res⟩
    rw [hc] at hzero
    simp only at hzero
    subst hzero
    simp
  refine ⟨hhw, ?_, ?_, by decide, ?_⟩
  · rw [hhw]
    show List.Perm s.write_states (st :: EpolloutDemo.remove_write_state _ st.fd)
    obtain ⟨hf1, hg1, _⟩ := EpolloutDemo.set_found s.write_states st.fd i
      (EpolloutDemo.continue_writing env s.kernel st).2.1 hfind hfd.1
    have hp1 := EpolloutDemo.remove_write_state_perm _ st.fd i _ hf1 hg1
    obtain ⟨pre, st0, post, h1, h2, _, _⟩ :=
      EpolloutDemo.find_write_state_split s.write_states st.fd i hfind
    have hst0 : st0 = st := by
      subst h2
      rw [h1, List.getElem?_append_right (le_refl _)] at hget
      simpa using hget
    subst hst0
    subst h2
    have hset : s.write_states.set pre.length
        (EpolloutDemo.continue_writing env s.kernel st0).2.1 =
        pre ++ (EpolloutDemo.continue_writing env s.kernel st0).2.1 :: post := by
      rw [h1]
      simp [List.set_append]
    rw [hset] at hp1 ⊢
    have hrest : List.Perm (pre ++ post)
        (EpolloutDemo.remove_write_state
          (pre ++ (EpolloutDemo.continue_writing env s.kernel st0).2.1 :: post) st0.fd) :=
      List.Perm.cons_inv (List.perm_middle.symm.trans hp1)
    rw [h1]
    exact List.perm_middle.trans (List.Perm.cons st0 hrest)
  · intro m hm
    rw [hhw]
    show (epoll_ctl_mod _ st.fd _).1.interest st.fd = _
    rw [interest_epoll_ctl_mod, if_pos rfl, interest_eq, hfd.2.1, ← interest_eq, hm]
    rfl
  · intro hone
    rw [hhw]
    show EpolloutDemo.find_write_state (EpolloutDemo.remove_write_state _ st.fd) st.fd = none
    apply EpolloutDemo.find_remove_write_state
    rw [(EpolloutDemo.set_found s.write_states st.fd i
      (EpolloutDemo.continue_writing env s.kernel st).2.1 hfind hfd.1).2.2]
    exact hone

/-- C21 at `demo5_pending` with a transport that takes all 5 bytes of `state5`:
`continue_writing` returns 0, the registry is left empty and descriptor 5 is registered
without `EPOLLOUT`. -/
theorem completed_write_retires_state_witness :
    (EpolloutDemo.continue_writing (env_of (fun _ => WriteResp.accepted 5))
        demo5_pending.kernel state5).2.2 = 0 ∧
      (EpolloutDemo.continue_writing (env_of (fun _ => WriteResp.accepted 5))
        demo5_pending.kernel state5).2.1.sent_bytes =
        (EpolloutDemo.continue_writing (env_of (fun _ => WriteResp.accepted 5))
          demo5_pending.kernel state5).2.1.total_size ∧
      List.Perm demo5_pending.write_states
        (state5 :: (EpolloutDemo.handle_client_write (env_of (fun _ => WriteResp.accepted 5))
          demo5_pending 5).write_states) ∧
      (EpolloutDemo.handle_client_write (env_of (fun _ => WriteResp.accepted 5))
          demo5_pending 5).kernel.interest 5 = some (EPOLLIN ||| EPOLLRDHUP ||| EPOLLET) ∧
      EpolloutDemo.find_write_state
        (EpolloutDemo.handle_client_write (env_of (fun _ => WriteResp.accepted 5))
          demo5_pending 5).write_states 5 = none := by
  have hresp : ∀ n, (sys_write (env_of (fun _ => WriteResp.accepted 5)) demo5_pending.kernel
      state5.fd (state5.data.drop state5.sent_bytes)
      (state5.total_size - state5.sent_bytes)).2 = WriteResp.accepted n →
      n ≤ state5.total_size - state5.sent_bytes := by
    intro n h
    have h5 : n = 5 := by
      have h' : WriteResp.accepted 5 = WriteResp.accepted n := h
      exact (WriteResp.accepted.inj h').symm
    subst h5
    decide
  have hzero : (EpolloutDemo.continue_writing (env_of (fun _ => WriteResp.accepted 5))
      demo5_pending.kernel state5).2.2 = 0 := by
    rw [EpolloutDemo.continue_writing_eq]
    decide
  have h := completed_write_retires_state (env_of (fun _ => WriteResp.accepted 5))
    demo5_pending.kernel state5 (by decide) hresp
  have h2 := h.2 demo5_pending 0 rfl rfl rfl hzero
  exact ⟨hzero, h.1.1 hzero, h2.2.1, h2.2.2.1 _ rfl, h2.2.2.2.2 (by decide)⟩

/-- C22: for every registry and every descriptor `fd`, `remove_write_state` keeps the
entries of every other descriptor `g ≠ fd` as a collection (the same records, possibly
at other positions); when an entry of `fd` exists the registry gets shorter by exactly
one and it is one entry of `fd` that went; when none exists the registry is returned
as it was. -/
theorem remove_write_state_frame (ws : List EpolloutDemo.client_write_state) (fd : Int) :
    (∀ g, g ≠ fd →
      List.Perm ((EpolloutDemo.remove_write_state ws fd).filter (fun st => st.fd == g))
        (ws.filter (fun st => st.fd == g))) ∧
      ((∃ st, st ∈ ws ∧ st.fd = fd) →
        (EpolloutDemo.remove_write_state ws fd).length + 1 = ws.length ∧
        states_for (EpolloutDemo.remove_write_state ws fd) fd + 1 = states_for ws fd) ∧
      ((∀ st, st ∈ ws → st.fd ≠ fd) → EpolloutDemo.remove_write_state ws fd = ws) := by
  cases hf : EpolloutDemo.find_write_state ws fd with
  | none =>
    have hnone := (EpolloutDemo.find_write_state_none_iff ws fd).1 hf
    rw [EpolloutDemo.remove_write_state_none ws fd hf]
    refine ⟨fun _ _ => List.Perm.refl _, ?_, fun _ => rfl⟩
    rintro ⟨st, hmem, hst⟩
    exact absurd hst (hnone st hmem)
  | some i =>
    obtain ⟨st, hget, hst⟩ := EpolloutDemo.find_write_state_some ws fd i hf
    have hperm := EpolloutDemo.remove_write_state_perm ws fd i st hf hget
    refine ⟨?_, ?_, ?_⟩
    · intro g hg
      have h := (hperm.filter (fun st => st.fd == g)).symm
      have hne : (st.fd == g) = false := by
        rw [hst]
        simpa using fun h => hg h.symm
      rw [List.filter_cons_of_neg (by simp [hne])] at h
      exact h
    · intro _
      refine ⟨?_, ?_⟩
      · have h := hperm.length_eq
        simpa using h.symm
      · have h := hperm.countP_eq (fun x => x.fd == fd)
        unfold states_for
        rw [h, List.countP_cons_of_pos]
        simp [hst]
    · intro hall
      have hmem : st ∈ ws := by
        obtain ⟨hlt, heq⟩ := List.getElem?_eq_some_iff.1 hget
        exact heq ▸ List.getElem_mem hlt
      exact absurd hst (hall st hmem)

/-- C22 on a registry holding two entries of descriptor 5 around one of descriptor 7:
removing 5 takes one entry of 5 away and keeps the entry of 7. -/
theorem remove_write_state_frame_witness :
    List.Perm
        ((EpolloutDemo.remove_write_state
          [state5, { state5 with fd := 7 }, { state5 with sent_bytes := 2 }] 5).filter
            (fun st => st.fd == 7))
        (([state5, { state5 with fd := 7 }, { state5 with sent_bytes := 2 }] :
          List EpolloutDemo.client_write_state).filter (fun st => st.fd == 7)) ∧
      (EpolloutDemo.remove_write_state
        [state5, { state5 with fd := 7 }, { state5 with sent_bytes := 2 }] 5).length + 1 = 3 :=
  ⟨(remove_write_state_frame
      [state5, { state5 with fd := 7 }, { state5 with sent_bytes := 2 }] 5).1 7 (by decide),
    ((remove_write_state_frame
      [state5, { state5 with fd := 7 }, { state5 with sent_bytes := 2 }] 5).2.1
        ⟨state5, by simp, rfl⟩).1⟩

/-- C23: `continue_writing` is a total function of the write state and the transport,
whatever the transport answers. For a write state with `sent_bytes ≤ total_size` that
still has bytes to send, the iteration either returns (with 1 or -1 and the state as it
was, or with 1 after a short write) or goes round the loop with `sent_bytes` strictly
larger; with nothing left to send it returns 0 without a `write`. The number of `write`
calls it issues is at most `total_size - sent_bytes + 1`. -/
theorem continue_writing_terminates (env : Env) (k : Kernel)
    (st : EpolloutDemo.client_write_state) (hle : st.sent_bytes ≤ st.total_size) :
    (∀ k1 r, st.sent_bytes < st.total_size →
        sys_write env k st.fd (st.data.drop st.sent_bytes)
          (st.total_size - st.sent_bytes) = (k1, r) →
        EpolloutDemo.continue_writing env k st = (k1, st, 1) ∨
        EpolloutDemo.continue_writing env k st = (k1, st, -1) ∨
        ∃ n, r = WriteResp.accepted n ∧ st.sent_bytes < st.sent_bytes + n ∧
          (EpolloutDemo.continue_writing env k st =
              (k1, { st with sent_bytes := st.sent_bytes + n }, 1) ∨
            EpolloutDemo.continue_writing env k st =
              EpolloutDemo.continue_writing env k1
                { st with sent_bytes := st.sent_bytes + n })) ∧
      (st.sent_bytes = st.total_size → EpolloutDemo.continue_writing env k st = (k, st, 0)) ∧
      k.writes ≤ (EpolloutDemo.continue_writing env k st).1.writes ∧
      (EpolloutDemo.continue_writing env k st).1.writes + st.sent_bytes ≤
        k.writes + st.total_size + 1 := by
  refine ⟨?_, ?_, ?_⟩
  · intro k1 r hp hsw
    rw [EpolloutDemo.continue_writing]
    simp only [hp, if_true, hsw]
    cases r with
    | wouldBlock => exact Or.inl rfl
    | fault => exact Or.inr (Or.inl rfl)
    | accepted n =>
      dsimp only
      by_cases h0 : n = 0
      · rw [if_pos h0]
        exact Or.inr (Or.inl rfl)
      · rw [if_neg h0]
        refine Or.inr (Or.inr ⟨n, rfl, by omega, ?_⟩)
        by_cases hlt : n < st.total_size - st.sent_bytes
        · rw [if_pos hlt]
          exact Or.inl rfl
        · rw [if_neg hlt]
          exact Or.inr rfl
  · intro heq
    rw [EpolloutDemo.continue_writing_eq, if_neg (by omega)]
  · rw [EpolloutDemo.continue_writing_eq]
    by_cases hp : st.sent_bytes < st.total_size
    · rw [if_pos hp]
      rcases hsw : sys_write env k st.fd (st.data.drop st.sent_bytes)
        (st.total_size - st.sent_bytes) with ⟨k1, r⟩
      have hk1 : k1.writes = k.writes + 1 := by
        have := congrArg (fun p => p.1.writes) hsw
        simp only [sys_write] at this
        split at this
        · split at this <;> exact this.symm
        · exact this.symm
      cases r with
      | wouldBlock => exact ⟨by simp [hk1], by show k1.writes + _ ≤ _; omega⟩
      | fault => exact ⟨by simp [hk1], by show k1.writes + _ ≤ _; omega⟩
      | accepted n =>
        dsimp only
        by_cases h0 : n = 0
        · rw [if_pos h0]
          exact ⟨by simp [hk1], by show k1.writes + _ ≤ _; omega⟩
        · rw [if_neg h0]
          by_cases hlt : n < st.total_size - st.sent_bytes
          · rw [if_pos hlt]
            exact ⟨by simp [hk1], by show k1.writes + _ ≤ _; omega⟩
          · rw [if_neg hlt]
            exact ⟨by simp [hk1], by show k1.writes + _ ≤ _; omega⟩
    · rw [if_neg hp]
      exact ⟨le_refl _, by show k.writes + _ ≤ _; omega⟩

/-- C23 at `state5` with a transport that takes 3 of the 5 bytes: one `write`, within
the bound of 6. -/
theorem continue_writing_terminates_witness :
    state5.sent_bytes ≤ state5.total_size ∧
      kernel5.writes ≤ (EpolloutDemo.continue_writing env_short kernel5 state5).1.writes ∧
      (EpolloutDemo.continue_writing env_short kernel5 state5).1.writes + state5.sent_bytes ≤
        kernel5.writes + state5.total_size + 1 :=
  ⟨by decide, (continue_writing_terminates env_short kernel5 state5 (by decide)).2.2⟩

end EpollTutorial
